import Mathlib

/-!
Form controller of the test-selection page (`static/js/script.js`)

A shallow embedding of the three functions of `script.js`:
`updateDropdown`, `loadSettings` and `saveSettings`.

* The document is a record with one field per element the script looks up by
  identifier; the element `endpoints-<n>...` of slot `n` is `endpoints n`.
* The two hidden JSON fields are held parsed, as finite lookups
  (`String → Option _`); a key that is absent reads as `undefined`, and a
  property access on `undefined` throws a `TypeError`.
* `localStorage` is a string-keyed store that may be undefined and whose
  accesses may throw.
* A JavaScript exception keeps every mutation made before it, so a result
  carries the state reached in both outcomes.
* The text of an `option` is what `option.text` reads: the constructor's text
  with ASCII whitespace stripped and collapsed.
* A label holds the markup assigned to its `innerHTML`; the text it shows is
  the parse of that markup, modelled for plain text, `<b>` and three
  character references, and left undetermined (`none`) elsewhere.
-/

namespace NmosTesting

/-! ## Data model -/

/-- One entry of `TestCatalog[T].specs`. -/
structure SpecRef where
  spec_key : String
  api_key : String
deriving DecidableEq, Repr

/-- One value of the TestCatalog (`hidden_tests`). -/
structure TestEntry where
  specs : List SpecRef
  tests : List String
deriving DecidableEq, Repr

/-- One value of `SpecCatalog[spec_key].apis`. -/
structure ApiEntry where
  name : String
deriving DecidableEq, Repr

/-- One value of the SpecCatalog (`hidden_specs`). -/
structure SpecEntry where
  versions : List String
  default_version : String
  apis : String → Option ApiEntry

/-- An `option` element: `text` is what its `text` attribute reads (the
element's text with ASCII whitespace stripped and collapsed), `value` its
`value` attribute. -/
structure OptionElem where
  text : String
  value : String
deriving DecidableEq, Repr

/-- A single-choice `select` element shown as a dropdown.
`selectedIndex = none` stands for the DOM value `-1`. -/
structure Select where
  options : List OptionElem
  selectedIndex : Option Nat
deriving DecidableEq, Repr

/-- The elements of one endpoint slot `n`: the container `endpoints-<n>`
(its `style.display`), the label `endpoints-<n>-label`, and the fields
`endpoints-<n>-version`, `-ip`, `-port`. The field `label` is the markup last
assigned to the label's `innerHTML`; the browser parses it, and the text the
label then shows is `Slot.labelText`. -/
structure Slot where
  display : String
  label : String
  version : Select
  ip : String
  port : String
deriving DecidableEq, Repr

/-- The document: the primary selector `test`, the `test_selection` dropdown,
the three hidden fields and the endpoint slots. -/
structure Page where
  test : Select
  test_selection : Select
  hidden_tests : String → Option TestEntry
  hidden_specs : String → Option SpecEntry
  hidden_options : Nat
  endpoints : Nat → Slot

/-- The browser's `localStorage`. `defined = false` is
`typeof(localStorage) === "undefined"`. `failAfter = some k` lets `k` more
calls of `getItem`/`setItem` succeed and makes every later call throw;
`none` never throws. -/
structure Storage where
  defined : Bool
  items : String → Option String
  failAfter : Option Nat

/-- The state the script runs on. -/
structure World where
  page : Page
  storage : Storage

/-- The kinds of exception the script can meet. -/
inductive JsError where
  | typeError
  | storageError
deriving DecidableEq, Repr

/-- Outcome of running a piece of script: it returns, or it throws; both
carry the state reached. -/
inductive Res (σ : Type) where
  | ok (s : σ)
  | throw (e : JsError) (s : σ)

/-- The state reached, whatever the outcome. -/
def Res.state {σ : Type} : Res σ → σ
  | .ok s => s
  | .throw _ s => s

/-- Whether the run returned normally. -/
def Res.returns {σ : Type} : Res σ → Bool
  | .ok _ => true
  | .throw _ _ => false

/-- The exception thrown, if any. -/
def Res.error {σ : Type} : Res σ → Option JsError
  | .ok _ => none
  | .throw e _ => some e

/-- Sequencing of statements: a throw skips what follows. -/
def Res.bind {σ : Type} (r : Res σ) (f : σ → Res σ) : Res σ :=
  match r with
  | .ok s => f s
  | .throw e s => .throw e s

/-- The loop `for (var i = start; i < start + count; i++) body(i)`. -/
def forLoop {σ : Type} (body : Nat → σ → Res σ) : Nat → Nat → σ → Res σ
  | 0, _, s => .ok s
  | count + 1, i, s => (body i s).bind (forLoop body count (i + 1))

/-! ## DOM operations on `select` and `option` -/

/-- ASCII whitespace of the DOM: tab, line feed, form feed, carriage return
and space. -/
def isAsciiWhitespace (c : Char) : Bool :=
  c.toNat = 9 || c.toNat = 10 || c.toNat = 12 || c.toNat = 13 || c.toNat = 32

/-- Stripping and collapsing of ASCII whitespace on a list of characters:
whitespace before the first and after the last other character is dropped,
and each run of whitespace in between becomes one space. `started` says that a
character was kept already, `pending` that whitespace was met since. -/
def collapseGo : Bool → Bool → List Char → List Char
  | _, _, [] => []
  | started, pending, c :: cs =>
    if isAsciiWhitespace c then collapseGo started started cs
    else if pending then Char.ofNat 32 :: c :: collapseGo true false cs
    else c :: collapseGo true false cs

/-- The DOM's "strip and collapse ASCII whitespace", which the getter of
`option.text` applies to the text of the element. -/
def stripAndCollapse (s : String) : String := ⟨collapseGo false false s.data⟩

/-- `new Option(text, value)`: the element's text is `text`, which reads back
through `option.text` stripped and collapsed; its value is `value`. -/
def newOption (text value : String) : OptionElem := ⟨stripAndCollapse text, value⟩

/-- `select.options[select.selectedIndex]`; `none` is `undefined`. -/
def Select.selectedOption (s : Select) : Option OptionElem :=
  match s.selectedIndex with
  | none => none
  | some i => s.options[i]?

/-- Getter of `select.value`: the value of the selected option, or the
empty string when none is selected. -/
def Select.value (s : Select) : String :=
  match s.selectedOption with
  | none => ""
  | some o => o.value

/-- Index of the first option whose value is `v`. -/
def firstMatch (v : String) : List OptionElem → Option Nat
  | [] => none
  | o :: os => if o.value = v then some 0 else (firstMatch v os).map (· + 1)

/-- Setter of `select.value`: the first option whose value equals `v`
becomes the selected one; with no such option nothing is selected. -/
def Select.setValue (s : Select) (v : String) : Select :=
  { s with selectedIndex := firstMatch v s.options }

/-- The statement `select.options.length = 0`. -/
def Select.clearOptions (_s : Select) : Select :=
  { options := [], selectedIndex := none }

/-- A blank option, which the DOM inserts when an index past the end is
assigned. -/
def blankOption : OptionElem := ⟨"", ""⟩

/-- Selection of a dropdown after options were inserted into it: a dropdown
with none selected selects its first option. -/
def autoSelect (sel : Option Nat) : Option Nat :=
  match sel with
  | some k => some k
  | none => some 0

/-- The statement `select.options[i] = o`: replaces the option at `i`, or
extends the list up to `i`. -/
def Select.setOption (s : Select) (i : Nat) (o : OptionElem) : Select :=
  if i < s.options.length then
    { s with options := s.options.set i o }
  else
    { options := s.options ++ List.replicate (i - s.options.length) blankOption ++ [o]
      selectedIndex := autoSelect s.selectedIndex }

/-- The loop `for (var i=0; i<xs.length; i++) select.options[i] = new Option(xs[i], xs[i])`,
from index `i` with `count` iterations left. -/
def fillOptions (xs : List String) : Nat → Nat → Select → Select
  | 0, _, s => s
  | count + 1, i, s =>
    fillOptions xs count (i + 1) (s.setOption i (newOption (xs.getD i "") (xs.getD i "")))

/-- Characters that the HTML parser takes over unchanged as text: all but
`<` (tag open), `&` (character reference), carriage return (normalised to a
line feed) and NUL (dropped). -/
def plainChar (c : Char) : Bool :=
  c ≠ '<' && c ≠ '&' && c.toNat ≠ 13 && c.toNat ≠ 0

/-- Text content that the HTML parser makes of markup, for the markup modelled
here: plain characters, the tags `<b>` and `</b>` (which add no text) and the
character references `&amp;`, `&lt;`, `&gt;`. Any other use of `<` or `&`, a
carriage return or a NUL gives `none`: markup outside the model. -/
def markupChars : List Char → Option (List Char)
  | [] => some []
  | '<' :: 'b' :: '>' :: rest => markupChars rest
  | '<' :: '/' :: 'b' :: '>' :: rest => markupChars rest
  | '&' :: 'a' :: 'm' :: 'p' :: ';' :: rest => (markupChars rest).map fun t => '&' :: t
  | '&' :: 'l' :: 't' :: ';' :: rest => (markupChars rest).map fun t => '<' :: t
  | '&' :: 'g' :: 't' :: ';' :: rest => (markupChars rest).map fun t => '>' :: t
  | c :: cs => if plainChar c then (markupChars cs).map fun t => c :: t else none

/-- Text content of an element after `element.innerHTML = markup`; `none` for
markup outside the model. -/
def markupText (markup : String) : Option String :=
  (markupChars markup.data).map fun t => String.mk t

/-- The text the label of a slot shows. -/
def Slot.labelText (s : Slot) : Option String := markupText s.label

/-- Conversion of a `getItem` result assigned to `select.value`: `null`
becomes the string `"null"`. -/
def selectArg (v : Option String) : String := v.getD "null"

/-- Conversion of a `getItem` result assigned to `input.value`: `null`
becomes the empty string. -/
def inputArg (v : Option String) : String := v.getD ""

/-! ## Page updates -/

/-- Replaces slot `n` by `f` of it. -/
def Page.setSlot (p : Page) (n : Nat) (f : Slot → Slot) : Page :=
  { p with endpoints := Function.update p.endpoints n (f (p.endpoints n)) }

/-- `apiNum.toString()`. -/
def numToString (apiNum : Nat) : String := Nat.repr apiNum

/-- Identifier `"endpoints-" + apiNum.toString() + "-ip"`. -/
def ipKey (apiNum : Nat) : String := "endpoints-" ++ numToString apiNum ++ "-ip"

/-- Identifier `"endpoints-" + apiNum.toString() + "-port"`. -/
def portKey (apiNum : Nat) : String := "endpoints-" ++ numToString apiNum ++ "-port"

/-- Identifier `"endpoints-" + apiNum.toString() + "-version"`. -/
def versionKey (apiNum : Nat) : String := "endpoints-" ++ numToString apiNum ++ "-version"

/-! ## `updateDropdown` -/

/-- Body of the slot loop of `updateDropdown` (lines 11-27) for slot `apiNum`.
`testData = none` is `undefined`, on which `testData["specs"]` throws. -/
def updateSlot (testData : Option TestEntry) (specData : String → Option SpecEntry)
    (apiNum : Nat) (p : Page) : Res Page :=
  match testData with
  | none => .throw .typeError p
  | some td =>
    if h : apiNum < td.specs.length then
      let p1 := p.setSlot apiNum fun s => { s with version := s.version.clearOptions }
      let specKey := (td.specs.get ⟨apiNum, h⟩).spec_key
      let apiKey := (td.specs.get ⟨apiNum, h⟩).api_key
      match specData specKey with
      | none => .throw .typeError p1
      | some sd =>
        let p2 := p1.setSlot apiNum fun s =>
          { s with version := fillOptions sd.versions sd.versions.length 0 s.version }
        let p3 := p2.setSlot apiNum fun s =>
          { s with version := s.version.setValue sd.default_version }
        match sd.apis apiKey with
        | none => .throw .typeError p3
        | some api =>
          let p4 := p3.setSlot apiNum fun s => { s with label := api.name ++ ":" }
          .ok (p4.setSlot apiNum fun s => { s with display := "block" })
    else
      .ok (p.setSlot apiNum fun s => { s with display := "none" })

/-- Lines 30-35 of `updateDropdown`: the `test_selection` dropdown is emptied,
then `testData["tests"]` is read (a throw when `testData` is `undefined`) and
the options are rebuilt. -/
def updateTestSelection (testData : Option TestEntry) (p : Page) : Res Page :=
  let p1 := { p with test_selection := p.test_selection.clearOptions }
  match testData with
  | none => .throw .typeError p1
  | some td =>
    .ok { p1 with test_selection := fillOptions td.tests td.tests.length 0 p1.test_selection }

/-- The function `updateDropdown`. -/
def updateDropdown (p : Page) : Res Page :=
  match p.test.selectedOption with
  | none => .throw .typeError p
  | some o =>
    let testID := o.value
    let testData := p.hidden_tests testID
    let specData := p.hidden_specs
    let maxOptions := p.hidden_options
    (forLoop (updateSlot testData specData) maxOptions 0 p).bind
      (updateTestSelection testData)

/-! ## `localStorage` -/

/-- One access to the storage: `none` when the access throws. -/
def Storage.tick (st : Storage) : Option Storage :=
  match st.failAfter with
  | none => some st
  | some 0 => none
  | some (k + 1) => some { st with failAfter := some k }

/-- `localStorage.getItem(key)`; the result `none` inside is `null`. -/
def Storage.getItem (st : Storage) (key : String) : Option (Option String × Storage) :=
  match st.tick with
  | none => none
  | some st1 => some (st1.items key, st1)

/-- The store with `key` mapped to `value`. -/
def Storage.put (st : Storage) (key value : String) : Storage :=
  { st with items := Function.update st.items key (some value) }

/-- `localStorage.setItem(key, value)`. -/
def Storage.setItem (st : Storage) (key value : String) : Option Storage :=
  match st.tick with
  | none => none
  | some st1 => some (st1.put key value)

/-- A statement `element.value = localStorage.getItem(key)`. -/
def assignFromStorage (key : String) (assign : Option String → Page → Page)
    (w : World) : Res World :=
  match w.storage.getItem key with
  | none => .throw .storageError w
  | some (v, st1) => .ok { page := assign v w.page, storage := st1 }

/-- A statement `localStorage.setItem(key, element.value)`. -/
def storeField (key : String) (read : Page → String) (w : World) : Res World :=
  match w.storage.setItem key (read w.page) with
  | none => .throw .storageError w
  | some st1 => .ok { w with storage := st1 }

/-- A call of `updateDropdown()` in a state with storage. -/
def refresh (w : World) : Res World :=
  match updateDropdown w.page with
  | .ok p1 => .ok { w with page := p1 }
  | .throw e p1 => .throw e { w with page := p1 }

/-! ## `loadSettings` -/

/-- Body of the loop of `loadSettings` (lines 47-49). -/
def restoreSlot (apiNum : Nat) (w : World) : Res World :=
  (assignFromStorage (ipKey apiNum)
    (fun v p => p.setSlot apiNum fun s => { s with ip := inputArg v }) w).bind fun w1 =>
  (assignFromStorage (portKey apiNum)
    (fun v p => p.setSlot apiNum fun s => { s with port := inputArg v }) w1).bind fun w2 =>
  assignFromStorage (versionKey apiNum)
    (fun v p => p.setSlot apiNum fun s =>
      { s with version := s.version.setValue (selectArg v) }) w2

/-- Lines 42-50 of `loadSettings`: what runs once the stored `"test"` entry
was found not to be `null`. -/
def loadStored (w : World) : Res World :=
  (assignFromStorage "test"
    (fun v p => { p with test := p.test.setValue (selectArg v) }) w).bind fun w1 =>
  (refresh w1).bind fun w2 =>
  (assignFromStorage "test_selection"
    (fun v p => { p with test_selection := p.test_selection.setValue (selectArg v) }) w2).bind
  fun w3 => forLoop restoreSlot w3.page.hidden_options 0 w3

/-- The function `loadSettings`. An exception inside the `try` block is
caught and logged, after which the final `updateDropdown()` runs. -/
def loadSettings (w : World) : Res World :=
  if w.storage.defined then
    match w.storage.getItem "test" with
    | none => refresh w
    | some (v, st1) =>
      let w1 : World := { w with storage := st1 }
      if v.isSome then
        match loadStored w1 with
        | .ok w2 => .ok w2
        | .throw _ w2 => refresh w2
      else refresh w1
  else refresh w

/-! ## `saveSettings` -/

/-- Body of the loop of `saveSettings` (lines 68-70). -/
def saveSlot (apiNum : Nat) (w : World) : Res World :=
  (storeField (ipKey apiNum) (fun p => (p.endpoints apiNum).ip) w).bind fun w1 =>
  (storeField (portKey apiNum) (fun p => (p.endpoints apiNum).port) w1).bind fun w2 =>
  storeField (versionKey apiNum) (fun p => (p.endpoints apiNum).version.value) w2

/-- The `try` block of `saveSettings` once `localStorage` is defined. -/
def saveFields (w : World) : Res World :=
  (storeField "test" (fun p => p.test.value) w).bind fun w1 =>
  (storeField "test_selection" (fun p => p.test_selection.value) w1).bind fun w2 =>
  forLoop saveSlot w2.page.hidden_options 0 w2

/-- The function `saveSettings`. It cannot throw: an exception of the storage
is caught and logged. -/
def saveSettings (w : World) : World :=
  if w.storage.defined then (saveFields w).state else w

/-! ## Notions used by the statements -/

/-- Numeric value of a list of decimal digit characters. -/
def digitsValue (l : List Char) : Nat := l.foldl (fun a c => a * 10 + (c.toNat - 48)) 0

/-- The selected test identifier,
`testDropdown.options[testDropdown.selectedIndex].value`. -/
def Page.testID (p : Page) : Option String :=
  p.test.selectedOption.map fun o => o.value

/-- Number of visible endpoint slots: the slots `0 .. maxOptions-1` whose
container has `display` equal to `"block"`. -/
def Page.visibleCount (p : Page) : Nat :=
  (List.range p.hidden_options).countP fun n => decide ((p.endpoints n).display = "block")

/-- The SpecCatalog holds the spec and the api a reference names. -/
def refOk (specData : String → Option SpecEntry) (ref : SpecRef) : Bool :=
  match specData ref.spec_key with
  | none => false
  | some sd => (sd.apis ref.api_key).isSome

/-- Every spec reference of `td` that the slot loop reads (index below
`maxOptions`) can be looked up in the SpecCatalog. -/
def catalogsOk (p : Page) (td : TestEntry) : Bool :=
  (td.specs.take p.hidden_options).all (refOk p.hidden_specs)

/-- The option list built from a list of strings: text and value both equal
to the element. -/
def optionsOf (xs : List String) : List OptionElem := xs.map fun x => newOption x x

/-- What `updateDropdown` never changes, whatever its outcome, when the test
data it read is `testData`: the primary selector, the hidden fields, the ip
and port of every slot, and the label and version dropdown of every slot at
or beyond the spec count. -/
structure UpdateFrame (testData : Option TestEntry) (p q : Page) : Prop where
  test : q.test = p.test
  hidden_tests : q.hidden_tests = p.hidden_tests
  hidden_specs : q.hidden_specs = p.hidden_specs
  hidden_options : q.hidden_options = p.hidden_options
  ip : ∀ j, (q.endpoints j).ip = (p.endpoints j).ip
  port : ∀ j, (q.endpoints j).port = (p.endpoints j).port
  label : ∀ j, (∀ td, testData = some td → td.specs.length ≤ j) →
    (q.endpoints j).label = (p.endpoints j).label
  version : ∀ j, (∀ td, testData = some td → td.specs.length ≤ j) →
    (q.endpoints j).version = (p.endpoints j).version

/-- State of the slot loop of `updateDropdown` after slots `0 .. n-1`, from
page `p` with test data `td`. -/
structure SlotLoopInv (td : TestEntry) (p : Page) (n : Nat) (q : Page) : Prop where
  test : q.test = p.test
  test_selection : q.test_selection = p.test_selection
  hidden_tests : q.hidden_tests = p.hidden_tests
  hidden_specs : q.hidden_specs = p.hidden_specs
  hidden_options : q.hidden_options = p.hidden_options
  rest : ∀ j, n ≤ j → q.endpoints j = p.endpoints j
  hidden : ∀ j, j < n → td.specs.length ≤ j →
    q.endpoints j = { p.endpoints j with display := "none" }
  shown : ∀ j ref, j < n → td.specs[j]? = some ref →
    ∃ sd api, p.hidden_specs ref.spec_key = some sd ∧ sd.apis ref.api_key = some api ∧
      q.endpoints j =
        { p.endpoints j with
          display := "block"
          label := api.name ++ ":"
          version := ⟨optionsOf sd.versions, firstMatch sd.default_version (optionsOf sd.versions)⟩ }

/-- State of the loop of `saveSettings` after slots `0 .. n-1`, from world
`w0`, on a storage that does not throw. -/
structure SaveInv (w0 : World) (n : Nat) (w : World) : Prop where
  page : w.page = w0.page
  defined : w.storage.defined = w0.storage.defined
  failAfter : w.storage.failAfter = none
  ip : ∀ j, j < n → w.storage.items (ipKey j) = some (w0.page.endpoints j).ip
  port : ∀ j, j < n → w.storage.items (portKey j) = some (w0.page.endpoints j).port
  version : ∀ j, j < n →
    w.storage.items (versionKey j) = some (w0.page.endpoints j).version.value
  other : ∀ key, (∀ j, j < n → key ≠ ipKey j ∧ key ≠ portKey j ∧ key ≠ versionKey j) →
    w.storage.items key = w0.storage.items key

/-- The slot that the loop of `loadSettings` makes of slot `s` of index `j`
from the stored items. -/
def restoredSlot (items : String → Option String) (j : Nat) (s : Slot) : Slot :=
  { s with
    ip := inputArg (items (ipKey j))
    port := inputArg (items (portKey j))
    version := s.version.setValue (selectArg (items (versionKey j))) }

/-- State of the loop of `loadSettings` after slots `0 .. n-1`, from world
`w0`, on a storage that does not throw. -/
structure RestoreInv (w0 : World) (n : Nat) (w : World) : Prop where
  storage : w.storage = w0.storage
  test : w.page.test = w0.page.test
  test_selection : w.page.test_selection = w0.page.test_selection
  hidden_tests : w.page.hidden_tests = w0.page.hidden_tests
  hidden_specs : w.page.hidden_specs = w0.page.hidden_specs
  hidden_options : w.page.hidden_options = w0.page.hidden_options
  rest : ∀ j, n ≤ j → w.page.endpoints j = w0.page.endpoints j
  done : ∀ j, j < n →
    w.page.endpoints j = restoredSlot w0.storage.items j (w0.page.endpoints j)

/-! ## Example of the specification -/

/-- The TestCatalog of the example. -/
def exTests : String → Option TestEntry := fun k =>
  if k = "t1" then some ⟨[⟨"s1", "a1"⟩], ["case1", "case2"]⟩ else none

/-- The SpecCatalog of the example. -/
def exSpecs : String → Option SpecEntry := fun k =>
  if k = "s1" then
    some ⟨["v1", "v2"], "v2", fun a => if a = "a1" then some ⟨"Payments"⟩ else none⟩
  else none

/-- A freshly rendered slot. -/
def exSlot : Slot := ⟨"", "", ⟨[], none⟩, "", ""⟩

/-- The page of the example, `t1` selected, `maxOptions = 2`. -/
def exPage : Page :=
  { test := ⟨[⟨"t1", "t1"⟩], some 0⟩
    test_selection := ⟨[], none⟩
    hidden_tests := exTests
    hidden_specs := exSpecs
    hidden_options := 2
    endpoints := fun _ => exSlot }


/-- A storage that is defined, empty and never throws. -/
def exStorage : Storage := ⟨true, fun _ => none, none⟩

/-- The example page with an empty storage. -/
def exWorld : World := ⟨exPage, exStorage⟩

/-- The example with a test of two specs on a page of one slot
(`maxOptions = 1`). -/
def twoSpecsPage : Page :=
  { exPage with
    hidden_tests := fun k =>
      if k = "t1" then some ⟨[⟨"s1", "a1"⟩, ⟨"s1", "a1"⟩], ["case1", "case2"]⟩ else none
    hidden_options := 1 }

/-- The example with a default version `"v3"` that is not among the versions
`"v1"`, `"v2"` of the spec. -/
def strayDefaultPage : Page :=
  { exPage with
    hidden_specs := fun k =>
      if k = "s1" then
        some ⟨["v1", "v2"], "v3", fun a => if a = "a1" then some ⟨"Payments"⟩ else none⟩
      else none }

/-- The example page as `updateDropdown` leaves it, the user having then
chosen `"case2"` in the test-selection dropdown; `localStorage` is undefined. -/
def noStorageWorld : World :=
  { page :=
      { exPage with
        test_selection := ⟨[⟨"case1", "case1"⟩, ⟨"case2", "case2"⟩], some 1⟩
        endpoints := fun n =>
          if n = 0 then ⟨"block", "Payments:", ⟨[⟨"v1", "v1"⟩, ⟨"v2", "v2"⟩], some 1⟩, "", ""⟩
          else ⟨"none", "", ⟨[], none⟩, "", ""⟩ }
    storage := ⟨false, fun _ => none, none⟩ }

/-- Two tests `t1` (selected on the page) and `t2`; the storage holds `"t2"`
under `"test"` and throws at the third access, the
`getItem("test_selection")` of `loadSettings`. -/
def lateThrowWorld : World :=
  { page :=
      { exPage with
        test := ⟨[⟨"t1", "t1"⟩, ⟨"t2", "t2"⟩], some 0⟩
        hidden_tests := fun k =>
          if k = "t1" then some ⟨[⟨"s1", "a1"⟩], ["case1", "case2"]⟩
          else if k = "t2" then some ⟨[], ["other"]⟩
          else none }
    storage :=
      { defined := true
        items := fun k =>
          if k = "test" then some "t2" else none
        failAfter := some 2 } }

/-- The example page with `"zz"`, which is no key of the TestCatalog, as the
only and selected option of the primary selector. -/
def unknownTestPage : Page :=
  { exPage with test := ⟨[⟨"zz", "zz"⟩], some 0⟩ }

/-- A storage holding `"zz"` under `"test"`. -/
def unknownTestStorage : Storage :=
  ⟨true, fun k => if k = "test" then some "zz" else none, none⟩

/-- Pages that agree on what decides whether `updateDropdown` returns: the
primary selector and the three hidden fields. -/
structure SameSelector (p q : Page) : Prop where
  test : q.test = p.test
  hidden_tests : q.hidden_tests = p.hidden_tests
  hidden_specs : q.hidden_specs = p.hidden_specs
  hidden_options : q.hidden_options = p.hidden_options

/-- Page `q` comes from the template of page `p`: the same hidden fields and
the same options offered by the primary selector; every other field of `q`
is free. The page `p` itself is one such page. -/
structure SameTemplate (p q : Page) : Prop where
  options : q.test.options = p.test.options
  hidden_tests : q.hidden_tests = p.hidden_tests
  hidden_specs : q.hidden_specs = p.hidden_specs
  hidden_options : q.hidden_options = p.hidden_options

/-- The run `r` returned and left the form fields with the values they have on
page `saved`: the primary selector, the test-selection field, and the ip, port
and version of every slot below `maxOptions`. -/
def Restored (saved : Page) (r : Res World) : Prop :=
  r.returns = true ∧
  r.state.page.test.value = saved.test.value ∧
  r.state.page.test_selection.value = saved.test_selection.value ∧
  ∀ n, n < saved.hidden_options →
    (r.state.page.endpoints n).ip = (saved.endpoints n).ip ∧
    (r.state.page.endpoints n).port = (saved.endpoints n).port ∧
    (r.state.page.endpoints n).version.value = (saved.endpoints n).version.value

/-- An access to the storage throws while `loadSettings` runs: the first
`getItem("test")` throws, or that call gave a stored test and the block that
applies the stored settings (lines 42-50) ended in an exception of the
storage, at the second `getItem` or a later one. -/
def storageThrows (w : World) : Prop :=
  w.storage.getItem "test" = none ∨
  ∃ v st1, w.storage.getItem "test" = some (some v, st1) ∧
    (loadStored ⟨w.page, st1⟩).error = some .storageError

/-- The example with a test name `"a  b"`, which holds two spaces in a row. -/
def spacedTestPage : Page :=
  { exPage with
    hidden_tests := fun k => if k = "t1" then some ⟨[⟨"s1", "a1"⟩], ["a  b"]⟩ else none }

/-- The example with the api name `"<b>Payments</b>"`, which holds markup. -/
def markupNamePage : Page :=
  { exPage with
    hidden_specs := fun k =>
      if k = "s1" then
        some ⟨["v1", "v2"], "v2", fun a => if a = "a1" then some ⟨"<b>Payments</b>"⟩ else none⟩
      else none }

/-- The example with an empty SpecCatalog: `t1` is a key of the TestCatalog,
the spec `s1` it references is missing. Slot 0 holds the version `"v1"`. -/
def missingSpecPage : Page :=
  { exPage with
    hidden_specs := fun _ => none
    endpoints := fun n =>
      if n = 0 then ⟨"block", "Payments:", ⟨[⟨"v1", "v1"⟩], some 0⟩, "", ""⟩ else exSlot }

/-- The example page in use: `updateDropdown` has run, and the user has chosen
`"case2"`, version `"v1"` and addresses for both slots. -/
def savedPage : Page :=
  { exPage with
    test_selection := ⟨[⟨"case1", "case1"⟩, ⟨"case2", "case2"⟩], some 1⟩
    endpoints := fun n =>
      if n = 0 then
        ⟨"block", "Payments:", ⟨[⟨"v1", "v1"⟩, ⟨"v2", "v2"⟩], some 0⟩, "10.0.0.1", "8080"⟩
      else ⟨"none", "", ⟨[], none⟩, "10.0.0.2", "9090"⟩ }

/-- The page in use with an empty storage. -/
def savedWorld : World := ⟨savedPage, exStorage⟩

/-- The page in use with a storage that throws at every access. -/
def throwingWorld : World := ⟨savedPage, ⟨true, fun _ => none, some 0⟩⟩

/-- The example page whose test-selection dropdown holds the single option
`"old"`, which is no test of `t1`. -/
def staleSelectionWorld : World :=
  ⟨{ exPage with test_selection := ⟨[⟨"old", "old"⟩], some 0⟩ }, exStorage⟩

/-- The example page whose slot 0 holds the version `"v0"`, which is no version
of the spec `s1`. -/
def staleVersionWorld : World :=
  ⟨{ exPage with
      endpoints := fun n =>
        if n = 0 then ⟨"block", "Payments:", ⟨[⟨"v0", "v0"⟩], some 0⟩, "", ""⟩ else exSlot },
    exStorage⟩

/-- The page in use whose hidden slot 1 still holds the version `"x2"` of a
test selected earlier. -/
def staleHiddenWorld : World :=
  ⟨{ savedPage with
      endpoints := fun n =>
        if n = 0 then
          ⟨"block", "Payments:", ⟨[⟨"v1", "v1"⟩, ⟨"v2", "v2"⟩], some 0⟩, "10.0.0.1", "8080"⟩
        else ⟨"none", "", ⟨[⟨"x2", "x2"⟩], some 0⟩, "10.0.0.2", "9090"⟩ },
    exStorage⟩

/-- The page with the unknown test `"zz"` selected and an address in slot 0. -/
def unknownSavedWorld : World :=
  ⟨{ unknownTestPage with
      endpoints := fun n => if n = 0 then ⟨"", "", ⟨[], none⟩, "10.0.0.1", "8080"⟩ else exSlot },
    exStorage⟩

/-- A page of another template: its primary selector offers `"t9"` only. -/
def otherTemplatePage : Page :=
  { exPage with test := ⟨[⟨"t9", "t9"⟩], some 0⟩ }

/-- The example page with a missing spec and a storage that throws at the
first access. -/
def missingSpecThrowWorld : World := ⟨missingSpecPage, ⟨true, fun _ => none, some 0⟩⟩

/-! ## Identifiers are distinct -/

theorem digitsValue_append_single (l : List Char) (c : Char) :
    digitsValue (l ++ [c]) = digitsValue l * 10 + (c.toNat - 48) := by
  simp [digitsValue, List.foldl_append]

theorem digitChar_value (k : Nat) (h : k < 10) : (Nat.digitChar k).toNat - 48 = k := by
  interval_cases k <;> rfl

theorem toDigitsCore_append (fuel : Nat) : ∀ (n : Nat) (ds : List Char),
    Nat.toDigitsCore 10 fuel n ds = Nat.toDigitsCore 10 fuel n [] ++ ds := by
  induction fuel with
  | zero => intro n ds; simp [Nat.toDigitsCore]
  | succ f ih =>
    intro n ds
    simp only [Nat.toDigitsCore]
    split
    · simp
    · rw [ih (n / 10) (Nat.digitChar (n % 10) :: ds), ih (n / 10) [Nat.digitChar (n % 10)]]
      simp

theorem digitsValue_toDigitsCore (fuel : Nat) : ∀ n : Nat, n < fuel →
    digitsValue (Nat.toDigitsCore 10 fuel n []) = n := by
  induction fuel with
  | zero => intro n h; omega
  | succ f ih =>
    intro n h
    simp only [Nat.toDigitsCore]
    split
    · rename_i h0
      have : n < 10 := by omega
      simp [digitsValue, digitChar_value n this, Nat.mod_eq_of_lt this]
    · rename_i h0
      rw [toDigitsCore_append, digitsValue_append_single, ih (n / 10) (by omega),
        digitChar_value _ (Nat.mod_lt _ (by decide))]
      omega

theorem numToString_injective (n m : Nat) (h : numToString n = numToString m) : n = m := by
  have h1 : (Nat.toDigits 10 n) = (Nat.toDigits 10 m) := by
    have := congrArg String.data h
    simpa [numToString, Nat.repr, List.asString] using this
  have := congrArg digitsValue h1
  simpa [Nat.toDigits, digitsValue_toDigitsCore] using this

theorem ipKey_injective (n m : Nat) (h : ipKey n = ipKey m) : n = m := by
  apply numToString_injective
  have := congrArg String.data h
  simp only [ipKey, String.data_append, List.append_cancel_right_eq, List.append_cancel_left_eq] at this
  exact String.ext this

theorem ipKey_ne_portKey (n m : Nat) : ipKey n ≠ portKey m := by
  intro h
  have := congrArg (fun s => s.data.reverse.head?) h
  simp [ipKey, portKey, String.data_append] at this

theorem test_ne_ipKey (n : Nat) : "test" ≠ ipKey n := by
  intro h
  have := congrArg (fun s => s.data.head?) h
  simp [ipKey, String.data_append] at this

/-! ## Lemmas on option text and label markup -/

theorem collapseGo_of_no_whitespace : ∀ (cs : List Char) (started : Bool),
    (∀ c ∈ cs, isAsciiWhitespace c = false) → collapseGo started false cs = cs := by
  intro cs
  induction cs with
  | nil => intro _ _; rfl
  | cons c cs ih =>
    intro started h
    have hc := h c (List.mem_cons_self c cs)
    simp only [collapseGo, hc, Bool.false_eq_true, if_false]
    rw [ih true (fun d hd => h d (List.mem_cons_of_mem c hd))]

theorem stripAndCollapse_of_no_whitespace (s : String)
    (h : ∀ c ∈ s.data, isAsciiWhitespace c = false) : stripAndCollapse s = s := by
  unfold stripAndCollapse
  rw [collapseGo_of_no_whitespace s.data false h]

theorem markupChars_cons_plain (c : Char) (cs : List Char) (h : plainChar c = true) :
    markupChars (c :: cs) = (markupChars cs).map fun t => c :: t := by
  have h1 : c ≠ '<' := by
    intro e; subst e; revert h; decide
  have h2 : c ≠ '&' := by
    intro e; subst e; revert h; decide
  rw [markupChars.eq_def]
  split
  · rename_i heq; simp at heq
  · rename_i heq; simp only [List.cons.injEq] at heq; exact absurd heq.1 h1
  · rename_i heq; simp only [List.cons.injEq] at heq; exact absurd heq.1 h1
  · rename_i heq; simp only [List.cons.injEq] at heq; exact absurd heq.1 h2
  · rename_i heq; simp only [List.cons.injEq] at heq; exact absurd heq.1 h2
  · rename_i heq; simp only [List.cons.injEq] at heq; exact absurd heq.1 h2
  · rename_i heq
    simp only [List.cons.injEq] at heq
    obtain ⟨e1, e2⟩ := heq
    subst e1 e2
    simp [h]

theorem markupChars_of_plain : ∀ cs : List Char, (∀ c ∈ cs, plainChar c = true) →
    markupChars cs = some cs := by
  intro cs
  induction cs with
  | nil => intro _; rw [markupChars.eq_def]
  | cons c cs ih =>
    intro h
    rw [markupChars_cons_plain c cs (h c (List.mem_cons_self c cs)),
      ih (fun d hd => h d (List.mem_cons_of_mem c hd))]
    rfl

/-- Markup without `<`, `&`, carriage return and NUL reads back as itself. -/
theorem markupText_of_plain (s : String) (h : ∀ c ∈ s.data, plainChar c = true) :
    markupText s = some s := by
  unfold markupText
  rw [markupChars_of_plain s.data h]
  rfl

theorem markupText_append_colon (s : String) (h : ∀ c ∈ s.data, plainChar c = true) :
    markupText (s ++ ":") = some (s ++ ":") := by
  apply markupText_of_plain
  intro c hc
  simp only [String.data_append, List.mem_append] at hc
  rcases hc with hc | hc
  · exact h c hc
  · have : c = ':' := by simpa using hc
    subst this
    decide

/-! ## Lemmas on `select` -/

theorem firstMatch_some (v : String) : ∀ (os : List OptionElem) (i : Nat),
    firstMatch v os = some i → ∃ o, os[i]? = some o ∧ o.value = v := by
  intro os
  induction os with
  | nil => intro i h; simp [firstMatch] at h
  | cons o os ih =>
    intro i h
    simp only [firstMatch] at h
    split at h
    · rename_i hv
      simp only [Option.some.injEq] at h
      subst h
      exact ⟨o, by simp, hv⟩
    · cases hm : firstMatch v os with
      | none => simp [hm] at h
      | some j =>
        simp only [hm, Option.map_some', Option.some.injEq] at h
        subst h
        obtain ⟨o', h1, h2⟩ := ih j hm
        exact ⟨o', by simpa using h1, h2⟩

theorem firstMatch_none (v : String) : ∀ (os : List OptionElem),
    firstMatch v os = none → ∀ o ∈ os, o.value ≠ v := by
  intro os
  induction os with
  | nil => intro _ o ho; simp at ho
  | cons o os ih =>
    intro h o' ho'
    simp only [firstMatch] at h
    split at h
    · simp at h
    · rename_i hv
      simp only [Option.map_eq_none'] at h
      rcases List.mem_cons.mp ho' with rfl | hmem
      · exact hv
      · exact ih h o' hmem

theorem value_setValue_of_mem (s : Select) (v : String)
    (h : ∃ o ∈ s.options, o.value = v) : (s.setValue v).value = v := by
  cases hm : firstMatch v s.options with
  | none =>
    obtain ⟨o, ho, hv⟩ := h
    exact absurd hv (firstMatch_none v s.options hm o ho)
  | some i =>
    obtain ⟨o, h1, h2⟩ := firstMatch_some v s.options i hm
    simp [Select.value, Select.selectedOption, Select.setValue, hm, h1, h2]

theorem value_setValue_of_not_mem (s : Select) (v : String)
    (h : ∀ o ∈ s.options, o.value ≠ v) : (s.setValue v).value = "" := by
  cases hm : firstMatch v s.options with
  | none => simp [Select.value, Select.selectedOption, Select.setValue, hm]
  | some i =>
    obtain ⟨o, h1, h2⟩ := firstMatch_some v s.options i hm
    exact absurd h2 (h o (List.getElem?_mem h1))

theorem value_setValue_empty (s : Select) : (s.setValue "").value = "" := by
  by_cases h : ∃ o ∈ s.options, o.value = ""
  · exact value_setValue_of_mem s "" h
  · exact value_setValue_of_not_mem s "" (by simpa using h)

theorem value_empty_or_mem (s : Select) :
    s.value = "" ∨ ∃ o ∈ s.options, o.value = s.value := by
  unfold Select.value
  cases h : s.selectedOption with
  | none => exact Or.inl rfl
  | some o =>
    right
    refine ⟨o, ?_, rfl⟩
    unfold Select.selectedOption at h
    cases hi : s.selectedIndex with
    | none => simp [hi] at h
    | some i =>
      simp only [hi] at h
      exact List.getElem?_mem h

/-- Writing a dropdown's own value back into it leaves the value as it is. -/
theorem value_setValue_value (s : Select) : (s.setValue s.value).value = s.value := by
  rcases value_empty_or_mem s with h | h
  · rw [h]; exact value_setValue_empty s
  · exact value_setValue_of_mem s s.value h

theorem setValue_options (s : Select) (v : String) : (s.setValue v).options = s.options := rfl

theorem fillOptions_eq (xs : List String) : ∀ (count i : Nat) (s : Select),
    s.options.length = i → i + count ≤ xs.length →
    fillOptions xs count i s =
      { options := s.options ++ ((xs.drop i).take count).map fun x => newOption x x
        selectedIndex := if count = 0 then s.selectedIndex else autoSelect s.selectedIndex } := by
  intro count
  induction count with
  | zero => intro i s _ _; simp [fillOptions]
  | succ c ih =>
    intro i s hlen hle
    have hi : i < xs.length := by omega
    simp only [fillOptions]
    have hset : s.setOption i (newOption (xs.getD i "") (xs.getD i "")) =
        { options := s.options ++ [newOption xs[i] xs[i]]
          selectedIndex := autoSelect s.selectedIndex } := by
      simp [Select.setOption, hlen, autoSelect, List.getD_eq_getElem?_getD, hi]
    rw [hset, ih (i + 1) _ (by simp [hlen]) (by omega)]
    have hdrop : List.drop i xs = xs[i] :: List.drop (i + 1) xs := by
      rw [List.drop_eq_getElem_cons hi]
    simp only [hdrop, List.take_succ_cons, List.map_cons, List.append_assoc, List.singleton_append,
      Nat.add_one_ne_zero, if_false]
    congr 1
    cases s.selectedIndex <;> simp [autoSelect]

/-- Rebuilding a dropdown from a list gives one option per element, in order,
with text equal to value, and selects the first one. -/
theorem fillOptions_clear (xs : List String) (s : Select) :
    fillOptions xs xs.length 0 s.clearOptions =
      { options := xs.map fun x => newOption x x
        selectedIndex := if xs.length = 0 then none else some 0 } := by
  rw [fillOptions_eq xs xs.length 0 s.clearOptions rfl (by omega)]
  simp [Select.clearOptions, autoSelect]




theorem portKey_injective (n m : Nat) (h : portKey n = portKey m) : n = m := by
  apply numToString_injective
  have := congrArg String.data h
  simp only [portKey, String.data_append, List.append_cancel_right_eq,
    List.append_cancel_left_eq] at this
  exact String.ext this

theorem versionKey_injective (n m : Nat) (h : versionKey n = versionKey m) : n = m := by
  apply numToString_injective
  have := congrArg String.data h
  simp only [versionKey, String.data_append, List.append_cancel_right_eq,
    List.append_cancel_left_eq] at this
  exact String.ext this

theorem ipKey_ne_versionKey (n m : Nat) : ipKey n ≠ versionKey m := by
  intro h
  have := congrArg (fun s => s.data.reverse.head?) h
  simp [ipKey, versionKey, String.data_append] at this

theorem portKey_ne_versionKey (n m : Nat) : portKey n ≠ versionKey m := by
  intro h
  have := congrArg (fun s => s.data.reverse.head?) h
  simp [portKey, versionKey, String.data_append] at this

theorem test_ne_portKey (n : Nat) : "test" ≠ portKey n := by
  intro h
  have := congrArg (fun s => s.data.head?) h
  simp [portKey, String.data_append] at this

theorem test_ne_versionKey (n : Nat) : "test" ≠ versionKey n := by
  intro h
  have := congrArg (fun s => s.data.head?) h
  simp [versionKey, String.data_append] at this

theorem testSelection_ne_ipKey (n : Nat) : "test_selection" ≠ ipKey n := by
  intro h
  have := congrArg (fun s => s.data.head?) h
  simp [ipKey, String.data_append] at this

theorem testSelection_ne_portKey (n : Nat) : "test_selection" ≠ portKey n := by
  intro h
  have := congrArg (fun s => s.data.head?) h
  simp [portKey, String.data_append] at this

theorem testSelection_ne_versionKey (n : Nat) : "test_selection" ≠ versionKey n := by
  intro h
  have := congrArg (fun s => s.data.head?) h
  simp [versionKey, String.data_append] at this

theorem test_ne_testSelection : "test" ≠ "test_selection" := by decide

/-! ## Lemmas on loops and sequencing -/

theorem Res.bind_ok {σ : Type} (s : σ) (f : σ → Res σ) : (Res.ok s).bind f = f s := rfl

theorem Res.bind_throw {σ : Type} (e : JsError) (s : σ) (f : σ → Res σ) :
    (Res.throw e s).bind f = .throw e s := rfl

theorem Res.returns_iff {σ : Type} (r : Res σ) : r.returns = true ↔ r = .ok r.state := by
  cases r <;> simp [Res.returns, Res.state]

theorem Res.eq_ok_state {σ : Type} {r : Res σ} {s : σ} (h : r = .ok s) : r.state = s := by
  subst h; rfl

/-- An invariant carried through the iterations of a loop that returns. -/
theorem forLoop_inv {σ : Type} (body : Nat → σ → Res σ) (P : Nat → σ → Prop) :
    ∀ (count i : Nat) (s s' : σ),
      (∀ j t t', i ≤ j → j < i + count → P j t → body j t = .ok t' → P (j + 1) t') →
      P i s → forLoop body count i s = .ok s' → P (i + count) s' := by
  intro count
  induction count with
  | zero =>
    intro i s s' _ hP h
    simp only [forLoop, Res.ok.injEq] at h
    subst h
    simpa using hP
  | succ c ih =>
    intro i s s' hstep hP h
    simp only [forLoop] at h
    cases hb : body i s with
    | throw e t => simp [hb, Res.bind] at h
    | ok t =>
      simp only [hb, Res.bind] at h
      have h1 := hstep i s t (le_refl i) (by omega) hP hb
      have := ih (i + 1) t s' (fun j u u' hj1 hj2 => hstep j u u' (by omega) (by omega)) h1 h
      simpa [Nat.add_assoc, Nat.add_comm 1 c] using this

/-- A loop whose body returns under the invariant returns. -/
theorem forLoop_total {σ : Type} (body : Nat → σ → Res σ) (P : Nat → σ → Prop) :
    ∀ (count i : Nat) (s : σ),
      (∀ j t, i ≤ j → j < i + count → P j t → ∃ t', body j t = .ok t' ∧ P (j + 1) t') →
      P i s → ∃ s', forLoop body count i s = .ok s' ∧ P (i + count) s' := by
  intro count
  induction count with
  | zero => intro i s _ hP; exact ⟨s, rfl, by simpa using hP⟩
  | succ c ih =>
    intro i s hstep hP
    obtain ⟨t, hb, ht⟩ := hstep i s (le_refl i) (by omega) hP
    obtain ⟨s', hs, hs'⟩ :=
      ih (i + 1) t (fun j u hj1 hj2 => hstep j u (by omega) (by omega)) ht
    refine ⟨s', ?_, ?_⟩
    · simp [forLoop, hb, Res.bind, hs]
    · simpa [Nat.add_assoc, Nat.add_comm 1 c] using hs'

/-- A property every iteration keeps, whether it returns or throws, holds of
the state the loop reaches. -/
theorem forLoop_state {σ : Type} (body : Nat → σ → Res σ) (Q : σ → Prop)
    (hstep : ∀ j t, Q t → Q (body j t).state) :
    ∀ (count i : Nat) (s : σ), Q s → Q (forLoop body count i s).state := by
  intro count
  induction count with
  | zero => intro i s h; exact h
  | succ c ih =>
    intro i s h
    have hb := hstep i s h
    simp only [forLoop]
    cases hr : body i s with
    | throw e t => rw [hr] at hb; exact hb
    | ok t => rw [hr] at hb; exact ih (i + 1) t hb

/-! ## Lemmas on `updateDropdown` -/

theorem setSlot_endpoints_same (p : Page) (n : Nat) (f : Slot → Slot) :
    (p.setSlot n f).endpoints n = f (p.endpoints n) := by
  simp [Page.setSlot]

theorem setSlot_endpoints_ne (p : Page) (n j : Nat) (f : Slot → Slot) (h : j ≠ n) :
    (p.setSlot n f).endpoints j = p.endpoints j := by
  simp [Page.setSlot, Function.update, h]

theorem UpdateFrame.refl (testData : Option TestEntry) (p : Page) : UpdateFrame testData p p :=
  ⟨rfl, rfl, rfl, rfl, fun _ => rfl, fun _ => rfl, fun _ _ => rfl, fun _ _ => rfl⟩

theorem UpdateFrame.trans {testData : Option TestEntry} {p q r : Page}
    (h1 : UpdateFrame testData p q) (h2 : UpdateFrame testData q r) : UpdateFrame testData p r :=
  ⟨h2.test.trans h1.test, h2.hidden_tests.trans h1.hidden_tests,
    h2.hidden_specs.trans h1.hidden_specs, h2.hidden_options.trans h1.hidden_options,
    fun j => (h2.ip j).trans (h1.ip j), fun j => (h2.port j).trans (h1.port j),
    fun j hj => (h2.label j hj).trans (h1.label j hj),
    fun j hj => (h2.version j hj).trans (h1.version j hj)⟩

/-- A change of one slot that keeps its ip and port, and its label and version
too when the slot is at or beyond the spec count, is within the frame. -/
theorem UpdateFrame.setSlot (testData : Option TestEntry) (p : Page) (n : Nat) (f : Slot → Slot)
    (hip : (f (p.endpoints n)).ip = (p.endpoints n).ip)
    (hport : (f (p.endpoints n)).port = (p.endpoints n).port)
    (hlabel : (∀ td, testData = some td → td.specs.length ≤ n) →
      (f (p.endpoints n)).label = (p.endpoints n).label)
    (hversion : (∀ td, testData = some td → td.specs.length ≤ n) →
      (f (p.endpoints n)).version = (p.endpoints n).version) :
    UpdateFrame testData p (p.setSlot n f) := by
  refine ⟨rfl, rfl, rfl, rfl, ?_, ?_, ?_, ?_⟩
  · intro j
    by_cases h : j = n
    · subst h; rw [setSlot_endpoints_same]; exact hip
    · rw [setSlot_endpoints_ne _ _ _ _ h]
  · intro j
    by_cases h : j = n
    · subst h; rw [setSlot_endpoints_same]; exact hport
    · rw [setSlot_endpoints_ne _ _ _ _ h]
  · intro j hj
    by_cases h : j = n
    · subst h; rw [setSlot_endpoints_same]; exact hlabel hj
    · rw [setSlot_endpoints_ne _ _ _ _ h]
  · intro j hj
    by_cases h : j = n
    · subst h; rw [setSlot_endpoints_same]; exact hversion hj
    · rw [setSlot_endpoints_ne _ _ _ _ h]

theorem updateSlot_frame (testData : Option TestEntry) (specData : String → Option SpecEntry)
    (apiNum : Nat) (p : Page) :
    UpdateFrame testData p (updateSlot testData specData apiNum p).state := by
  unfold updateSlot
  cases testData with
  | none => exact UpdateFrame.refl _ _
  | some td =>
    simp only
    split
    · rename_i h
      have hno : ¬ (∀ td', some td = some td' → td'.specs.length ≤ apiNum) := by
        intro hc
        have := hc td rfl
        omega
      have s1 : UpdateFrame (some td) p
          (p.setSlot apiNum fun s => { s with version := s.version.clearOptions }) :=
        UpdateFrame.setSlot (some td) p apiNum
          (fun s => { s with version := s.version.clearOptions })
          rfl rfl (fun hc => absurd hc hno) (fun hc => absurd hc hno)
      split
      · exact s1
      · rename_i sd _
        have s2 := s1.trans (UpdateFrame.setSlot (some td) _ apiNum
          (fun s => { s with version := fillOptions sd.versions sd.versions.length 0 s.version })
          rfl rfl (fun hc => absurd hc hno) (fun hc => absurd hc hno))
        have s3 := s2.trans (UpdateFrame.setSlot (some td) _ apiNum
          (fun s => { s with version := s.version.setValue sd.default_version })
          rfl rfl (fun hc => absurd hc hno) (fun hc => absurd hc hno))
        split
        · exact s3
        · rename_i api _
          have s4 := s3.trans (UpdateFrame.setSlot (some td) _ apiNum
            (fun s => { s with label := api.name ++ ":" })
            rfl rfl (fun hc => absurd hc hno) (fun hc => absurd hc hno))
          exact s4.trans (UpdateFrame.setSlot (some td) _ apiNum
            (fun s => { s with display := "block" }) rfl rfl (fun _ => rfl) (fun _ => rfl))
    · exact UpdateFrame.setSlot (some td) p apiNum (fun s => { s with display := "none" })
        rfl rfl (fun _ => rfl) (fun _ => rfl)


/-- The slot a shown slot becomes. -/
theorem updateSlot_shown (td : TestEntry) (specData : String → Option SpecEntry)
    (apiNum : Nat) (p : Page) (ref : SpecRef) (sd : SpecEntry) (api : ApiEntry)
    (href : td.specs[apiNum]? = some ref) (hsd : specData ref.spec_key = some sd)
    (hapi : sd.apis ref.api_key = some api) :
    updateSlot (some td) specData apiNum p =
      .ok (p.setSlot apiNum fun s =>
        { s with
          display := "block"
          label := api.name ++ ":"
          version := ⟨optionsOf sd.versions,
            firstMatch sd.default_version (optionsOf sd.versions)⟩ }) := by
  obtain ⟨h, hget⟩ := List.getElem?_eq_some_iff.mp href
  have hget2 : td.specs.get ⟨apiNum, h⟩ = ref := by simpa using hget
  unfold updateSlot
  simp only [dif_pos h, hget2, hsd, hapi]
  simp [Page.setSlot, fillOptions_clear, Select.setValue, optionsOf]

/-- The slot a hidden slot becomes. -/
theorem updateSlot_hidden (td : TestEntry) (specData : String → Option SpecEntry)
    (apiNum : Nat) (p : Page) (h : td.specs.length ≤ apiNum) :
    updateSlot (some td) specData apiNum p =
      .ok (p.setSlot apiNum fun s => { s with display := "none" }) := by
  unfold updateSlot
  simp [not_lt.mpr h]

/-- A slot below the spec count whose spec or api is missing from the
SpecCatalog makes the slot loop throw. -/
theorem updateSlot_throws (td : TestEntry) (specData : String → Option SpecEntry)
    (apiNum : Nat) (p : Page) (ref : SpecRef)
    (href : td.specs[apiNum]? = some ref) (hbad : refOk specData ref = false) :
    (updateSlot (some td) specData apiNum p).error = some .typeError := by
  obtain ⟨h, hget⟩ := List.getElem?_eq_some_iff.mp href
  have hget2 : td.specs.get ⟨apiNum, h⟩ = ref := by simpa using hget
  unfold updateSlot
  simp only [dif_pos h, hget2]
  unfold refOk at hbad
  cases hsd : specData ref.spec_key with
  | none => simp [Res.error, hsd]
  | some sd =>
    simp only [hsd] at hbad
    cases hapi : sd.apis ref.api_key with
    | none => simp [Res.error, hsd, hapi]
    | some api => simp [hapi] at hbad

theorem refOk_iff (specData : String → Option SpecEntry) (ref : SpecRef) :
    refOk specData ref = true ↔
      ∃ sd api, specData ref.spec_key = some sd ∧ sd.apis ref.api_key = some api := by
  unfold refOk
  cases hsd : specData ref.spec_key with
  | none => simp
  | some sd =>
    cases hapi : sd.apis ref.api_key with
    | none => simp [hapi]
    | some api => simp [hapi]

theorem slotLoopInv_start (td : TestEntry) (p : Page) : SlotLoopInv td p 0 p :=
  ⟨rfl, rfl, rfl, rfl, rfl, fun _ _ => rfl, fun j h _ => absurd h (Nat.not_lt_zero j),
    fun j _ h _ => absurd h (Nat.not_lt_zero j)⟩

/-- One iteration of the slot loop that returns extends the invariant by one slot. -/
theorem updateSlot_step (td : TestEntry) (p : Page) (i : Nat) (q q' : Page)
    (hinv : SlotLoopInv td p i q)
    (h : updateSlot (some td) p.hidden_specs i q = .ok q') :
    SlotLoopInv td p (i + 1) q' := by
  by_cases hlt : i < td.specs.length
  · have href : td.specs[i]? = some td.specs[i] := List.getElem?_eq_getElem hlt
    cases hok : refOk p.hidden_specs td.specs[i] with
    | false =>
      have := updateSlot_throws td p.hidden_specs i q _ href hok
      rw [h] at this
      simp [Res.error] at this
    | true =>
      obtain ⟨sd, api, hsd, hapi⟩ := (refOk_iff _ _).mp hok
      rw [updateSlot_shown td p.hidden_specs i q _ sd api href hsd hapi] at h
      simp only [Res.ok.injEq] at h
      subst h
      refine ⟨hinv.test, hinv.test_selection, hinv.hidden_tests, hinv.hidden_specs,
        hinv.hidden_options, ?_, ?_, ?_⟩
      · intro j hj
        rw [setSlot_endpoints_ne _ _ _ _ (by omega)]
        exact hinv.rest j (by omega)
      · intro j hj hlen
        rw [setSlot_endpoints_ne _ _ _ _ (by omega)]
        exact hinv.hidden j (by omega) hlen
      · intro j ref hj hjref
        by_cases hji : j = i
        · subst hji
          rw [href] at hjref
          simp only [Option.some.injEq] at hjref
          subst hjref
          refine ⟨sd, api, hsd, hapi, ?_⟩
          rw [setSlot_endpoints_same, hinv.rest j (le_refl j)]
        · rw [setSlot_endpoints_ne _ _ _ _ hji]
          exact hinv.shown j ref (by omega) hjref
  · have hle : td.specs.length ≤ i := by omega
    rw [updateSlot_hidden td p.hidden_specs i q hle] at h
    simp only [Res.ok.injEq] at h
    subst h
    refine ⟨hinv.test, hinv.test_selection, hinv.hidden_tests, hinv.hidden_specs,
      hinv.hidden_options, ?_, ?_, ?_⟩
    · intro j hj
      rw [setSlot_endpoints_ne _ _ _ _ (by omega)]
      exact hinv.rest j (by omega)
    · intro j hj hlen
      by_cases hji : j = i
      · subst hji
        rw [setSlot_endpoints_same, hinv.rest j (le_refl j)]
      · rw [setSlot_endpoints_ne _ _ _ _ hji]
        exact hinv.hidden j (by omega) hlen
    · intro j ref hj hjref
      have hjlt : j < td.specs.length := (List.getElem?_eq_some_iff.mp hjref).1
      rw [setSlot_endpoints_ne _ _ _ _ (by omega)]
      exact hinv.shown j ref (by omega) hjref

theorem catalogsOk_ref (p : Page) (td : TestEntry) (h : catalogsOk p td = true)
    (i : Nat) (ref : SpecRef) (hi : i < p.hidden_options) (href : td.specs[i]? = some ref) :
    refOk p.hidden_specs ref = true := by
  unfold catalogsOk at h
  rw [List.all_eq_true] at h
  apply h
  obtain ⟨hlt, hget⟩ := List.getElem?_eq_some_iff.mp href
  rw [List.mem_take_iff_getElem]
  exact ⟨i, by simp [hi, hlt], hget⟩

/-- With the referenced specs and apis in the SpecCatalog, an iteration of the
slot loop returns. -/
theorem updateSlot_returns (td : TestEntry) (p : Page) (hcat : catalogsOk p td = true)
    (i : Nat) (hi : i < p.hidden_options) (q : Page) :
    ∃ q', updateSlot (some td) p.hidden_specs i q = .ok q' := by
  by_cases hlt : i < td.specs.length
  · have href : td.specs[i]? = some td.specs[i] := List.getElem?_eq_getElem hlt
    obtain ⟨sd, api, hsd, hapi⟩ := (refOk_iff _ _).mp (catalogsOk_ref p td hcat i _ hi href)
    exact ⟨_, updateSlot_shown td p.hidden_specs i q _ sd api href hsd hapi⟩
  · exact ⟨_, updateSlot_hidden td p.hidden_specs i q (by omega)⟩

/-- The test data `updateDropdown` reads: `none` when nothing is selected or
the selected identifier is not a key of the TestCatalog. -/
theorem updateDropdown_eq (p : Page) (o : OptionElem) (h : p.test.selectedOption = some o) :
    updateDropdown p =
      (forLoop (updateSlot (p.hidden_tests o.value) p.hidden_specs) p.hidden_options 0 p).bind
        (updateTestSelection (p.hidden_tests o.value)) := by
  simp [updateDropdown, h]

/-- Result of `updateDropdown` when it returns: the slot loop ran over every
slot below `maxOptions`, and the test-selection dropdown was rebuilt. -/
theorem updateDropdown_post (p q : Page) (o : OptionElem) (td : TestEntry)
    (hsel : p.test.selectedOption = some o) (htd : p.hidden_tests o.value = some td)
    (h : updateDropdown p = .ok q) :
    ∃ q1, SlotLoopInv td p p.hidden_options q1 ∧
      q = { q1 with test_selection :=
        ⟨optionsOf td.tests, if td.tests.length = 0 then none else some 0⟩ } := by
  rw [updateDropdown_eq p o hsel, htd] at h
  cases hloop : forLoop (updateSlot (some td) p.hidden_specs) p.hidden_options 0 p with
  | throw e t => simp [hloop, Res.bind] at h
  | ok q1 =>
    refine ⟨q1, ?_, ?_⟩
    · have := forLoop_inv (updateSlot (some td) p.hidden_specs) (SlotLoopInv td p)
        p.hidden_options 0 p q1
        (fun j t t' _ _ hP hb => updateSlot_step td p j t t' hP hb)
        (slotLoopInv_start td p) hloop
      simpa using this
    · simp only [hloop, Res.bind, updateTestSelection, Res.ok.injEq] at h
      rw [← h, fillOptions_clear]
      rfl

/-- With a selected test that is a key of the TestCatalog and the referenced
specs and apis in the SpecCatalog, `updateDropdown` returns. -/
theorem updateDropdown_returns (p : Page) (o : OptionElem) (td : TestEntry)
    (hsel : p.test.selectedOption = some o) (htd : p.hidden_tests o.value = some td)
    (hcat : catalogsOk p td = true) : ∃ q, updateDropdown p = .ok q := by
  rw [updateDropdown_eq p o hsel, htd]
  obtain ⟨q1, hq1, _⟩ := forLoop_total (updateSlot (some td) p.hidden_specs)
    (fun _ _ => True) p.hidden_options 0 p
    (fun j t _ hj _ => by
      obtain ⟨t', ht'⟩ := updateSlot_returns td p hcat j (by omega) t
      exact ⟨t', ht', trivial⟩) trivial
  rw [hq1]
  exact ⟨_, rfl⟩

/-- What `updateDropdown` leaves unchanged, whatever its outcome. -/
theorem updateDropdown_frame (p : Page) :
    UpdateFrame (p.test.selectedOption.bind fun o => p.hidden_tests o.value) p
      (updateDropdown p).state := by
  cases hsel : p.test.selectedOption with
  | none => simp [updateDropdown, hsel, Res.state]; exact UpdateFrame.refl _ _
  | some o =>
    rw [updateDropdown_eq p o hsel]
    simp only [Option.bind]
    have hloop := forLoop_state (updateSlot (p.hidden_tests o.value) p.hidden_specs)
      (UpdateFrame (p.hidden_tests o.value) p)
      (fun j t ht => ht.trans (updateSlot_frame _ _ j t)) p.hidden_options 0 p
      (UpdateFrame.refl _ _)
    cases hr : forLoop (updateSlot (p.hidden_tests o.value) p.hidden_specs) p.hidden_options 0 p with
    | throw e t => rw [hr] at hloop; exact hloop
    | ok t =>
      rw [hr] at hloop
      simp only [Res.state] at hloop
      simp only [Res.bind, updateTestSelection]
      cases htd : p.hidden_tests o.value with
      | none =>
        simp only [Res.state]
        rw [htd] at hloop
        exact ⟨hloop.test, hloop.hidden_tests, hloop.hidden_specs, hloop.hidden_options,
          hloop.ip, hloop.port, hloop.label, hloop.version⟩
      | some td =>
        simp only [Res.state]
        rw [htd] at hloop
        exact ⟨hloop.test, hloop.hidden_tests, hloop.hidden_specs, hloop.hidden_options,
          hloop.ip, hloop.port, hloop.label, hloop.version⟩

/-- A selected identifier that is not a key of the TestCatalog, or no selected
option at all, makes `updateDropdown` throw a `TypeError`. -/
theorem updateDropdown_throws (p : Page)
    (h : (p.test.selectedOption.bind fun o => p.hidden_tests o.value) = none) :
    (updateDropdown p).error = some .typeError := by
  cases hsel : p.test.selectedOption with
  | none => simp [updateDropdown, hsel, Res.error]
  | some o =>
    rw [hsel] at h
    simp only [Option.bind] at h
    rw [updateDropdown_eq p o hsel, h]
    cases hn : p.hidden_options with
    | zero => simp [forLoop, Res.bind, updateTestSelection, Res.error]
    | succ k => simp [forLoop, Res.bind, updateSlot, Res.error]


/-! ## Lemmas on the storage -/

theorem tick_of_noFail (st : Storage) (h : st.failAfter = none) : st.tick = some st := by
  simp [Storage.tick, h]

theorem assignFromStorage_ok (key : String) (assign : Option String → Page → Page) (w : World)
    (h : w.storage.failAfter = none) :
    assignFromStorage key assign w =
      .ok { page := assign (w.storage.items key) w.page, storage := w.storage } := by
  simp [assignFromStorage, Storage.getItem, tick_of_noFail _ h]

theorem storeField_ok (key : String) (read : Page → String) (w : World)
    (h : w.storage.failAfter = none) :
    storeField key read w = .ok ⟨w.page, w.storage.put key (read w.page)⟩ := by
  simp [storeField, Storage.setItem, tick_of_noFail _ h]

theorem put_items (st : Storage) (key value k : String) :
    (st.put key value).items k = if k = key then some value else st.items k := by
  simp [Storage.put, Function.update_apply]

theorem storeField_page (key : String) (read : Page → String) (w : World) :
    (storeField key read w).state.page = w.page := by
  unfold storeField
  cases w.storage.setItem key (read w.page) <;> rfl

/-! ## Lemmas on `saveSettings` -/

theorem saveSlot_page (j : Nat) (w : World) : (saveSlot j w).state.page = w.page := by
  unfold saveSlot
  have h1 := storeField_page (ipKey j) (fun p => (p.endpoints j).ip) w
  cases hr1 : storeField (ipKey j) (fun p => (p.endpoints j).ip) w with
  | throw e t => rw [hr1] at h1; exact h1
  | ok t =>
    rw [hr1] at h1
    simp only [Res.state] at h1
    simp only [Res.bind]
    have h2 := storeField_page (portKey j) (fun p => (p.endpoints j).port) t
    cases hr2 : storeField (portKey j) (fun p => (p.endpoints j).port) t with
    | throw e u => rw [hr2] at h2; simp only [Res.state] at h2 ⊢; rw [h2, h1]
    | ok u =>
      rw [hr2] at h2
      simp only [Res.state] at h2
      simp only []
      rw [storeField_page, h2, h1]

/-- No form field is changed by `saveSettings`, whatever the storage does. -/
theorem saveSettings_page (w : World) : (saveSettings w).page = w.page := by
  unfold saveSettings
  split
  · unfold saveFields
    have h1 := storeField_page "test" (fun p => p.test.value) w
    cases hr1 : storeField "test" (fun p => p.test.value) w with
    | throw e t => rw [hr1] at h1; exact h1
    | ok t =>
      rw [hr1] at h1
      simp only [Res.state] at h1
      simp only [Res.bind]
      have h2 := storeField_page "test_selection" (fun p => p.test_selection.value) t
      cases hr2 : storeField "test_selection" (fun p => p.test_selection.value) t with
      | throw e u => rw [hr2] at h2; simp only [Res.state] at h2 ⊢; rw [h2, h1]
      | ok u =>
        rw [hr2] at h2
        simp only [Res.state] at h2
        simp only []
        have := forLoop_state saveSlot (fun x : World => x.page = w.page)
          (fun j x hx => (saveSlot_page j x).trans hx) u.page.hidden_options 0 u (h2.trans h1)
        exact this
  · rfl

theorem saveInv_start (w : World) (h : w.storage.failAfter = none) : SaveInv w 0 w :=
  ⟨rfl, rfl, h, fun j hj => absurd hj (Nat.not_lt_zero j),
    fun j hj => absurd hj (Nat.not_lt_zero j), fun j hj => absurd hj (Nat.not_lt_zero j),
    fun _ _ => rfl⟩

theorem saveSlot_ok (j : Nat) (w : World) (h : w.storage.failAfter = none) :
    saveSlot j w = .ok ⟨w.page,
      ((w.storage.put (ipKey j) (w.page.endpoints j).ip).put
        (portKey j) (w.page.endpoints j).port).put
        (versionKey j) (w.page.endpoints j).version.value⟩ := by
  simp [saveSlot, storeField, Storage.setItem, Storage.tick, Storage.put, h, Res.bind]

/-- One iteration of the loop of `saveSettings` on a storage that does not throw. -/
theorem saveSlot_step (w0 : World) (j : Nat) (w : World) (hinv : SaveInv w0 j w) :
    ∃ w', saveSlot j w = .ok w' ∧ SaveInv w0 (j + 1) w' := by
  refine ⟨_, saveSlot_ok j w hinv.failAfter, ?_⟩
  refine ⟨hinv.page, hinv.defined, hinv.failAfter, ?_, ?_, ?_, ?_⟩
  · intro k hk
    simp only [put_items, ipKey_ne_versionKey, ipKey_ne_portKey, if_false]
    by_cases hkj : k = j
    · subst hkj; simp [hinv.page]
    · have : ipKey k ≠ ipKey j := fun h => hkj (ipKey_injective _ _ h)
      simp only [this, if_false]
      exact hinv.ip k (by omega)
  · intro k hk
    simp only [put_items, portKey_ne_versionKey, (ipKey_ne_portKey _ _).symm, if_false]
    by_cases hkj : k = j
    · subst hkj; simp [hinv.page]
    · have : portKey k ≠ portKey j := fun h => hkj (portKey_injective _ _ h)
      simp only [this, if_false]
      exact hinv.port k (by omega)
  · intro k hk
    simp only [put_items]
    by_cases hkj : k = j
    · subst hkj; simp [hinv.page]
    · have : versionKey k ≠ versionKey j := fun h => hkj (versionKey_injective _ _ h)
      simp only [this, if_false, (portKey_ne_versionKey _ _).symm, (ipKey_ne_versionKey _ _).symm]
      exact hinv.version k (by omega)
  · intro key hkey
    obtain ⟨h1, h2, h3⟩ := hkey j (by omega)
    simp only [put_items, h1, h2, h3, if_false]
    exact hinv.other key (fun k hk => hkey k (by omega))

/-- What `saveSettings` leaves in a storage that is defined and does not throw. -/
theorem saveSettings_stores (w : World) (hdef : w.storage.defined = true)
    (hfail : w.storage.failAfter = none) :
    (saveSettings w).page = w.page ∧
    (saveSettings w).storage.defined = true ∧
    (saveSettings w).storage.failAfter = none ∧
    (saveSettings w).storage.items "test" = some w.page.test.value ∧
    (saveSettings w).storage.items "test_selection" = some w.page.test_selection.value ∧
    (∀ n, n < w.page.hidden_options →
      (saveSettings w).storage.items (ipKey n) = some (w.page.endpoints n).ip ∧
      (saveSettings w).storage.items (portKey n) = some (w.page.endpoints n).port ∧
      (saveSettings w).storage.items (versionKey n) = some (w.page.endpoints n).version.value) ∧
    (∀ key, key ≠ "test" → key ≠ "test_selection" →
      (∀ n, n < w.page.hidden_options →
        key ≠ ipKey n ∧ key ≠ portKey n ∧ key ≠ versionKey n) →
      (saveSettings w).storage.items key = w.storage.items key) := by
  have hfields : saveFields w =
      forLoop saveSlot w.page.hidden_options 0
        ⟨w.page, (w.storage.put "test" w.page.test.value).put
          "test_selection" w.page.test_selection.value⟩ := by
    simp [saveFields, storeField, Storage.setItem, Storage.tick, Storage.put, hfail, Res.bind]
  unfold saveSettings
  rw [if_pos hdef, hfields]
  obtain ⟨w', hw', hinv⟩ := forLoop_total saveSlot
    (SaveInv ⟨w.page, (w.storage.put "test" w.page.test.value).put
      "test_selection" w.page.test_selection.value⟩) w.page.hidden_options 0
    ⟨w.page, (w.storage.put "test" w.page.test.value).put
      "test_selection" w.page.test_selection.value⟩
    (fun j t _ _ hP => saveSlot_step _ j t hP) (saveInv_start _ hfail)
  rw [hw']
  simp only [Res.state, Nat.zero_add] at hinv ⊢
  refine ⟨hinv.page, by rw [hinv.defined]; exact hdef, hinv.failAfter, ?_, ?_, ?_, ?_⟩
  · rw [hinv.other "test" (fun j _ => ⟨test_ne_ipKey j, test_ne_portKey j, test_ne_versionKey j⟩)]
    simp [put_items, test_ne_testSelection]
  · rw [hinv.other "test_selection" (fun j _ =>
      ⟨testSelection_ne_ipKey j, testSelection_ne_portKey j, testSelection_ne_versionKey j⟩)]
    simp [put_items]
  · intro n hn
    exact ⟨hinv.ip n hn, hinv.port n hn, hinv.version n hn⟩
  · intro key h1 h2 h3
    rw [hinv.other key h3]
    simp [put_items, h1, h2]


/-! ## Lemmas on `loadSettings` -/

theorem refresh_page (w : World) : (refresh w).state.page = (updateDropdown w.page).state := by
  unfold refresh
  cases updateDropdown w.page <;> rfl

theorem refresh_storage (w : World) : (refresh w).state.storage = w.storage := by
  unfold refresh
  cases updateDropdown w.page <;> rfl

theorem refresh_error (w : World) : (refresh w).error = (updateDropdown w.page).error := by
  unfold refresh
  cases updateDropdown w.page <;> rfl

theorem refresh_returns (w : World) : (refresh w).returns = (updateDropdown w.page).returns := by
  unfold refresh
  cases updateDropdown w.page <;> rfl

theorem setSlot_setSlot (p : Page) (n : Nat) (f g : Slot → Slot) :
    (p.setSlot n f).setSlot n g = p.setSlot n fun s => g (f s) := by
  simp [Page.setSlot]

theorem restoreSlot_ok (j : Nat) (w : World) (h : w.storage.failAfter = none) :
    restoreSlot j w = .ok ⟨w.page.setSlot j (restoredSlot w.storage.items j), w.storage⟩ := by
  simp only [restoreSlot, assignFromStorage, Storage.getItem, Storage.tick, h, Res.bind,
    setSlot_setSlot]
  rfl

theorem restoreInv_start (w : World) : RestoreInv w 0 w :=
  ⟨rfl, rfl, rfl, rfl, rfl, rfl, fun _ _ => rfl, fun j hj => absurd hj (Nat.not_lt_zero j)⟩

/-- One iteration of the loop of `loadSettings` on a storage that does not throw. -/
theorem restoreSlot_step (p0 : Page) (st0 : Storage) (h0 : st0.failAfter = none) (j : Nat)
    (w : World) (hinv : RestoreInv ⟨p0, st0⟩ j w) :
    ∃ w', restoreSlot j w = .ok w' ∧ RestoreInv ⟨p0, st0⟩ (j + 1) w' := by
  have hf : w.storage.failAfter = none := by rw [hinv.storage]; exact h0
  refine ⟨_, restoreSlot_ok j w hf, ?_⟩
  refine ⟨hinv.storage, hinv.test, hinv.test_selection, hinv.hidden_tests, hinv.hidden_specs,
    hinv.hidden_options, ?_, ?_⟩
  · intro k hk
    rw [setSlot_endpoints_ne _ _ _ _ (by omega)]
    exact hinv.rest k (by omega)
  · intro k hk
    by_cases hkj : k = j
    · subst hkj
      rw [setSlot_endpoints_same, hinv.rest k (le_refl k), hinv.storage]
    · rw [setSlot_endpoints_ne _ _ _ _ hkj]
      exact hinv.done k (by omega)

/-- The stored settings as `loadSettings` applies them: on a storage that is
defined, does not throw and holds a `"test"` entry `v`, when `updateDropdown`
returns `p2` on the page with `v` selected, `loadSettings` returns; it leaves
the primary selector on `v`, the test-selection dropdown of `p2` set to the
stored `"test_selection"`, and each slot below `maxOptions` restored from the
stored items. -/
theorem loadSettings_stored (w : World) (v : String) (p2 : Page)
    (hdef : w.storage.defined = true) (hfail : w.storage.failAfter = none)
    (hv : w.storage.items "test" = some v)
    (hup : updateDropdown { w.page with test := w.page.test.setValue v } = .ok p2) :
    ∃ w', loadSettings w = .ok w' ∧
      RestoreInv
        ⟨{ p2 with test_selection :=
            p2.test_selection.setValue (selectArg (w.storage.items "test_selection")) },
          w.storage⟩
        p2.hidden_options w' := by
  have hstored : loadStored w =
      forLoop restoreSlot p2.hidden_options 0
        ⟨{ p2 with test_selection :=
            p2.test_selection.setValue (selectArg (w.storage.items "test_selection")) },
          w.storage⟩ := by
    simp [loadStored, assignFromStorage, Storage.getItem, Storage.tick, hfail, Res.bind, hv,
      selectArg, refresh, hup]
  obtain ⟨w', hw', hinv⟩ := forLoop_total restoreSlot
    (RestoreInv ⟨{ p2 with test_selection :=
        p2.test_selection.setValue (selectArg (w.storage.items "test_selection")) },
      w.storage⟩) p2.hidden_options 0
    ⟨{ p2 with test_selection :=
        p2.test_selection.setValue (selectArg (w.storage.items "test_selection")) },
      w.storage⟩
    (fun j t _ _ hP => restoreSlot_step _ w.storage hfail j t hP) (restoreInv_start _)
  refine ⟨w', ?_, by simpa using hinv⟩
  have hload : loadSettings w = match loadStored w with
      | .ok w2 => .ok w2
      | .throw _ w2 => refresh w2 := by
    simp [loadSettings, hdef, Storage.getItem, Storage.tick, hfail, hv]
  rw [hload, hstored, hw']

/-- The fallback of `loadSettings`: when the storage is undefined, holds no
`"test"` entry, or throws at the first or the second `getItem`, the run is one
`updateDropdown` on the page as it is. -/
theorem loadSettings_fallback (w : World)
    (h : w.storage.defined = false ∨ w.storage.items "test" = none ∨
      w.storage.failAfter = some 0 ∨ w.storage.failAfter = some 1) :
    (loadSettings w).state.page = (updateDropdown w.page).state ∧
    (loadSettings w).error = (updateDropdown w.page).error ∧
    (loadSettings w).returns = (updateDropdown w.page).returns ∧
    (loadSettings w).state.storage.items = w.storage.items := by
  have key : ∃ w1 : World, loadSettings w = refresh w1 ∧ w1.page = w.page ∧
      w1.storage.items = w.storage.items := by
    unfold loadSettings
    cases hdef : w.storage.defined with
    | false => exact ⟨w, by simp, rfl, rfl⟩
    | true =>
      simp only [if_true]
      cases hf : w.storage.failAfter with
      | none =>
        cases hv : w.storage.items "test" with
        | none =>
          exact ⟨w, by simp [Storage.getItem, Storage.tick, hf, hv], rfl, rfl⟩
        | some v => simp [hdef, hf, hv] at h
      | some k =>
        cases k with
        | zero => exact ⟨w, by simp [Storage.getItem, Storage.tick, hf], rfl, rfl⟩
        | succ k =>
          cases hv : w.storage.items "test" with
          | none =>
            exact ⟨⟨w.page, { w.storage with failAfter := some k }⟩,
              by simp [Storage.getItem, Storage.tick, hf, hv], rfl, rfl⟩
          | some v =>
            have hk : k = 0 := by simpa [hdef, hf, hv] using h
            subst hk
            exact ⟨⟨w.page, { w.storage with failAfter := some 0 }⟩,
              by simp [Storage.getItem, Storage.tick, hf, hv, loadStored, assignFromStorage,
                Res.bind], rfl, rfl⟩
  obtain ⟨w1, hw1, hp, hs⟩ := key
  rw [hw1, refresh_page, refresh_error, refresh_returns, refresh_storage, hp, hs]
  exact ⟨rfl, rfl, rfl, rfl⟩

/-- A stored `"test"` entry that is not a key of the TestCatalog: the error of
the `updateDropdown` inside the `try` block is caught, and the `updateDropdown`
after the `catch` throws it again. -/
theorem loadSettings_throws_stored (w : World) (v : String)
    (hdef : w.storage.defined = true) (hv : w.storage.items "test" = some v)
    (h0 : w.storage.failAfter ≠ some 0) (h1 : w.storage.failAfter ≠ some 1)
    (hbad : w.page.hidden_tests v = none) :
    (loadSettings w).error = some .typeError := by
  have hsel : ∀ q : Page, q.test = w.page.test.setValue v → q.hidden_tests = w.page.hidden_tests →
      (q.test.selectedOption.bind fun o => q.hidden_tests o.value) = none := by
    intro q hq1 hq2
    rw [hq1, hq2]
    cases hm : firstMatch v w.page.test.options with
    | none => simp [Select.selectedOption, Select.setValue, hm]
    | some i =>
      obtain ⟨o, ho1, ho2⟩ := firstMatch_some v _ i hm
      simp [Select.selectedOption, Select.setValue, hm, ho1, ho2, hbad]
  have key : ∃ st2 : Storage, loadSettings w =
      match (refresh ⟨{ w.page with test := w.page.test.setValue v }, st2⟩).bind (fun w2 =>
        (assignFromStorage "test_selection"
          (fun v p => { p with test_selection := p.test_selection.setValue (selectArg v) })
          w2).bind fun w3 => forLoop restoreSlot w3.page.hidden_options 0 w3) with
      | .ok w2 => .ok w2
      | .throw _ w2 => refresh w2 := by
    cases hf : w.storage.failAfter with
    | none =>
      exact ⟨w.storage, by
        simp [loadSettings, hdef, Storage.getItem, Storage.tick, hf, hv, loadStored,
          assignFromStorage, Res.bind, selectArg]⟩
    | some k =>
      cases k with
      | zero => exact absurd hf h0
      | succ k =>
        cases k with
        | zero => exact absurd hf h1
        | succ k =>
          exact ⟨{ w.storage with failAfter := some k }, by
            simp [loadSettings, hdef, Storage.getItem, Storage.tick, hf, hv, loadStored,
              assignFromStorage, Res.bind, selectArg]⟩
  obtain ⟨st2, hload⟩ := key
  rw [hload]
  have hthrow := updateDropdown_throws { w.page with test := w.page.test.setValue v }
    (hsel _ rfl rfl)
  have hframe := updateDropdown_frame { w.page with test := w.page.test.setValue v }
  unfold refresh
  cases hup : updateDropdown { w.page with test := w.page.test.setValue v } with
  | ok q => rw [hup] at hthrow; simp [Res.error] at hthrow
  | throw e q =>
    rw [hup] at hframe
    simp only [Res.state] at hframe
    simp only [Res.bind]
    have := updateDropdown_throws q (hsel q hframe.test hframe.hidden_tests)
    cases hq : updateDropdown q with
    | ok q' => rw [hq] at this; simp [Res.error] at this
    | throw e' q' => rw [hq] at this; simpa [Res.error] using this


/-! ## What decides the outcome of `updateDropdown` -/

theorem Res.error_of_returns {σ : Type} (r : Res σ) (h : r.returns = true) : r.error = none := by
  cases r with
  | ok s => rfl
  | throw e s => simp [Res.returns] at h

theorem Res.returns_of_error {σ : Type} (r : Res σ) (e : JsError) (h : r.error = some e) :
    r.returns = false := by
  cases r with
  | ok s => simp [Res.error] at h
  | throw e s => rfl

/-- An error leaving a loop is an error of its body. -/
theorem forLoop_error {σ : Type} (body : Nat → σ → Res σ) (E : JsError → Prop)
    (h : ∀ j t e, (body j t).error = some e → E e) :
    ∀ (count i : Nat) (s : σ) (e : JsError), (forLoop body count i s).error = some e → E e := by
  intro count
  induction count with
  | zero => intro i s e he; simp [forLoop, Res.error] at he
  | succ c ih =>
    intro i s e he
    simp only [forLoop] at he
    cases hb : body i s with
    | throw e1 t =>
      rw [hb] at he
      simp only [Res.bind, Res.error, Option.some.injEq] at he
      subst he
      exact h i s e1 (by rw [hb]; rfl)
    | ok t =>
      rw [hb] at he
      exact ih (i + 1) t e he

theorem updateSlot_error (testData : Option TestEntry) (specData : String → Option SpecEntry)
    (apiNum : Nat) (p : Page) (e : JsError)
    (h : (updateSlot testData specData apiNum p).error = some e) : e = .typeError := by
  unfold updateSlot at h
  cases testData with
  | none => simpa [Res.error] using h.symm
  | some td =>
    simp only at h
    split at h
    · split at h
      · simpa [Res.error] using h.symm
      · split at h
        · simpa [Res.error] using h.symm
        · simp [Res.error] at h
    · simp [Res.error] at h

/-- The only exception `updateDropdown` throws is a `TypeError`. -/
theorem updateDropdown_error (p : Page) (e : JsError) (h : (updateDropdown p).error = some e) :
    e = .typeError := by
  cases hsel : p.test.selectedOption with
  | none => simpa [updateDropdown, hsel, Res.error] using h.symm
  | some o =>
    rw [updateDropdown_eq p o hsel] at h
    cases hloop : forLoop (updateSlot (p.hidden_tests o.value) p.hidden_specs)
        p.hidden_options 0 p with
    | throw e1 t =>
      rw [hloop] at h
      simp only [Res.bind, Res.error, Option.some.injEq] at h
      subst h
      exact forLoop_error _ (fun e => e = .typeError)
        (fun j t e he => updateSlot_error _ _ j t e he) p.hidden_options 0 p e1
        (by rw [hloop]; rfl)
    | ok t =>
      rw [hloop] at h
      simp only [Res.bind, updateTestSelection] at h
      cases htd : p.hidden_tests o.value with
      | none => rw [htd] at h; simpa [Res.error] using h.symm
      | some td => rw [htd] at h; simp [Res.error] at h

/-- When `updateDropdown` returns, the selected test is a key of the
TestCatalog and the SpecCatalog holds what the slot loop read. -/
theorem updateDropdown_returns_inv (p : Page) (h : (updateDropdown p).returns = true) :
    ∃ o td, p.test.selectedOption = some o ∧ p.hidden_tests o.value = some td ∧
      catalogsOk p td = true := by
  have herr := Res.error_of_returns _ h
  cases hsel : p.test.selectedOption with
  | none =>
    have := updateDropdown_throws p (by simp [hsel])
    rw [herr] at this
    simp at this
  | some o =>
    cases htd : p.hidden_tests o.value with
    | none =>
      have := updateDropdown_throws p (by simp [hsel, htd])
      rw [herr] at this
      simp at this
    | some td =>
      refine ⟨o, td, rfl, htd, ?_⟩
      have hq := (Res.returns_iff _).mp h
      rw [updateDropdown_eq p o hsel, htd] at hq
      cases hloop : forLoop (updateSlot (some td) p.hidden_specs) p.hidden_options 0 p with
      | throw e t => rw [hloop] at hq; simp [Res.bind] at hq
      | ok q1 =>
        have hP := forLoop_inv (updateSlot (some td) p.hidden_specs)
          (fun j _ => ∀ i, i < j → ∀ ref, td.specs[i]? = some ref →
            refOk p.hidden_specs ref = true)
          p.hidden_options 0 p q1
          (fun j t t' _ _ hP hb i hi ref href => by
            by_cases hij : i = j
            · subst hij
              cases hok : refOk p.hidden_specs ref with
              | true => rfl
              | false =>
                have := updateSlot_throws td p.hidden_specs i t ref href hok
                rw [hb] at this
                simp [Res.error] at this
            · exact hP i (by omega) ref href)
          (fun i hi => absurd hi (Nat.not_lt_zero i)) hloop
        unfold catalogsOk
        rw [List.all_eq_true]
        intro x hx
        rw [List.mem_take_iff_getElem] at hx
        obtain ⟨i, hi, rfl⟩ := hx
        have hi2 : i < p.hidden_options ∧ i < td.specs.length := by
          simpa using hi
        exact hP i (by simpa using hi2.1) _ (List.getElem?_eq_getElem hi2.2)

theorem sameSelector_refl (p : Page) : SameSelector p p := ⟨rfl, rfl, rfl, rfl⟩

theorem sameSelector_trans {p q r : Page} (h1 : SameSelector p q) (h2 : SameSelector q r) :
    SameSelector p r :=
  ⟨h2.test.trans h1.test, h2.hidden_tests.trans h1.hidden_tests,
    h2.hidden_specs.trans h1.hidden_specs, h2.hidden_options.trans h1.hidden_options⟩

theorem updateDropdown_sameSelector (p : Page) : SameSelector p (updateDropdown p).state :=
  have h := updateDropdown_frame p
  ⟨h.test, h.hidden_tests, h.hidden_specs, h.hidden_options⟩

/-- Whether `updateDropdown` returns is decided by the primary selector and the
hidden fields alone. -/
theorem updateDropdown_returns_of_sameSelector (p q : Page) (h : SameSelector p q)
    (hr : (updateDropdown p).returns = true) : (updateDropdown q).returns = true := by
  obtain ⟨o, td, hsel, htd, hcat⟩ := updateDropdown_returns_inv p hr
  have hcat2 : catalogsOk q td = true := by
    unfold catalogsOk at hcat ⊢
    rw [h.hidden_options, h.hidden_specs]
    exact hcat
  obtain ⟨q2, hq2⟩ := updateDropdown_returns q o td (by rw [h.test]; exact hsel)
    (by rw [h.hidden_tests]; exact htd) hcat2
  rw [hq2]
  rfl

theorem assignFromStorage_sameSelector (key : String) (assign : Option String → Page → Page)
    (hassign : ∀ v p, SameSelector p (assign v p)) (w : World) :
    SameSelector w.page (assignFromStorage key assign w).state.page := by
  unfold assignFromStorage
  cases w.storage.getItem key with
  | none => exact sameSelector_refl _
  | some r => exact hassign r.1 w.page

theorem setSlot_sameSelector (p : Page) (n : Nat) (f : Slot → Slot) :
    SameSelector p (p.setSlot n f) := ⟨rfl, rfl, rfl, rfl⟩

theorem restoreSlot_sameSelector (j : Nat) (w : World) :
    SameSelector w.page (restoreSlot j w).state.page := by
  unfold restoreSlot
  have h1 := assignFromStorage_sameSelector (ipKey j)
    (fun v p => p.setSlot j fun s => { s with ip := inputArg v })
    (fun _ p => setSlot_sameSelector p j _) w
  cases hr1 : assignFromStorage (ipKey j)
      (fun v p => p.setSlot j fun s => { s with ip := inputArg v }) w with
  | throw e t => rw [hr1] at h1; exact h1
  | ok t =>
    rw [hr1] at h1
    simp only [Res.state] at h1
    simp only [Res.bind]
    have h2 := assignFromStorage_sameSelector (portKey j)
      (fun v p => p.setSlot j fun s => { s with port := inputArg v })
      (fun _ p => setSlot_sameSelector p j _) t
    cases hr2 : assignFromStorage (portKey j)
        (fun v p => p.setSlot j fun s => { s with port := inputArg v }) t with
    | throw e u => rw [hr2] at h2; exact sameSelector_trans h1 h2
    | ok u =>
      rw [hr2] at h2
      simp only [Res.state] at h2
      simp only []
      exact sameSelector_trans (sameSelector_trans h1 h2)
        (assignFromStorage_sameSelector (versionKey j)
          (fun v p => p.setSlot j fun s =>
            { s with version := s.version.setValue (selectArg v) })
          (fun _ p => setSlot_sameSelector p j _) u)

theorem getItem_some (st st1 : Storage) (key : String) (v : Option String)
    (h : st.getItem key = some (v, st1)) :
    st1.items = st.items ∧ v = st.items key ∧ st.failAfter ≠ some 0 := by
  unfold Storage.getItem Storage.tick at h
  cases hf : st.failAfter with
  | none =>
    simp only [hf, Option.some.injEq, Prod.mk.injEq] at h
    obtain ⟨h1, h2⟩ := h
    subst h2
    exact ⟨rfl, h1.symm, by simp⟩
  | some k =>
    cases k with
    | zero => simp [hf] at h
    | succ k =>
      simp only [hf, Option.some.injEq, Prod.mk.injEq] at h
      obtain ⟨h1, h2⟩ := h
      subst h2
      exact ⟨rfl, h1.symm, by simp⟩

theorem getItem_none (st : Storage) (key : String) (h : st.getItem key = none) :
    st.failAfter = some 0 := by
  unfold Storage.getItem Storage.tick at h
  cases hf : st.failAfter with
  | none => simp [hf] at h
  | some k =>
    cases k with
    | zero => rfl
    | succ k => simp [hf] at h

/-- Where an exception of the storage can leave the block of `loadSettings`
that applies the stored settings: at its first `getItem`, with nothing
changed, or after the `updateDropdown` inside it has returned. -/
theorem loadStored_storageError (w1 : World)
    (h : (loadStored w1).error = some .storageError) :
    (w1.storage.failAfter = some 0 ∧ (loadStored w1).state = w1) ∨
    (w1.storage.failAfter ≠ some 0 ∧
      (updateDropdown
        { w1.page with test := w1.page.test.setValue (selectArg (w1.storage.items "test")) }
        ).returns = true ∧
      SameSelector
        { w1.page with test := w1.page.test.setValue (selectArg (w1.storage.items "test")) }
        (loadStored w1).state.page) := by
  unfold loadStored at h ⊢
  unfold assignFromStorage at h ⊢
  cases hg : w1.storage.getItem "test" with
  | none =>
    left
    exact ⟨getItem_none _ _ hg, by simp [Res.bind, Res.state]⟩
  | some r =>
    obtain ⟨v, st2⟩ := r
    obtain ⟨hitems, hv, hne⟩ := getItem_some _ _ _ _ hg
    right
    rw [hg] at h
    simp only [Res.bind, refresh] at h ⊢
    subst hv
    have hsame := updateDropdown_sameSelector
      { w1.page with test := w1.page.test.setValue (selectArg (w1.storage.items "test")) }
    cases hup : updateDropdown
        { w1.page with test := w1.page.test.setValue (selectArg (w1.storage.items "test")) } with
    | throw e q =>
      rw [hup] at h
      simp only [Res.error, Option.some.injEq] at h
      have := updateDropdown_error _ e (by rw [hup]; rfl)
      rw [this] at h
      exact absurd h (by decide)
    | ok p2 =>
      rw [hup] at hsame
      simp only [Res.state] at hsame
      refine ⟨hne, rfl, ?_⟩
      simp only []
      have h3 := assignFromStorage_sameSelector "test_selection"
        (fun v p => { p with test_selection := p.test_selection.setValue (selectArg v) })
        (fun _ _ => ⟨rfl, rfl, rfl, rfl⟩) ⟨p2, st2⟩
      cases hr3 : assignFromStorage "test_selection"
          (fun v p => { p with test_selection := p.test_selection.setValue (selectArg v) })
          ⟨p2, st2⟩ with
      | throw e t =>
        rw [hr3] at h3
        simp only [assignFromStorage] at hr3
        simp only [hr3, Res.state] at h3 ⊢
        exact sameSelector_trans hsame h3
      | ok t =>
        rw [hr3] at h3
        simp only [assignFromStorage] at hr3
        simp only [hr3, Res.state] at h3 ⊢
        have hloop := forLoop_state restoreSlot (fun x : World => SameSelector t.page x.page)
          (fun j x hx => sameSelector_trans hx (restoreSlot_sameSelector j x))
          t.page.hidden_options 0 t
          (sameSelector_refl _)
        exact sameSelector_trans (sameSelector_trans hsame h3) hloop

/-! ## Properties of `updateDropdown` -/

theorem countP_lt_range (a : Nat) : ∀ n : Nat,
    (List.range n).countP (fun j => decide (j < a)) = min a n := by
  intro n
  induction n with
  | zero => simp
  | succ n ih =>
    rw [List.range_succ, List.countP_append, ih]
    by_cases h : n < a
    · simp [List.countP_cons, h]; omega
    · simp [List.countP_cons, h]; omega

/-- The display of each slot below `maxOptions` once the slot loop is done. -/
theorem SlotLoopInv.display_iff {td : TestEntry} {p q : Page} {n : Nat}
    (h : SlotLoopInv td p n q) (j : Nat) (hj : j < n) :
    (q.endpoints j).display = "block" ↔ j < td.specs.length := by
  by_cases hlt : j < td.specs.length
  · obtain ⟨sd, api, _, _, heq⟩ := h.shown j td.specs[j] hj (List.getElem?_eq_getElem hlt)
    simp [heq, hlt]
  · rw [h.hidden j hj (by omega)]
    simp [hlt]

/-- C1 (as amended): with a selected test `T` that is a key of the TestCatalog,
`updateDropdown` returns when the SpecCatalog holds the specs and apis that
`T` references; and when it returns, the number of visible slots among the
`maxOptions` slots is the smaller of `len(TestCatalog[T].specs)` and
`maxOptions`, every slot below both is shown, and every slot below
`maxOptions` at or beyond the spec count is hidden. -/
theorem C1_visible_slots (p : Page) (o : OptionElem) (td : TestEntry)
    (hsel : p.test.selectedOption = some o) (htd : p.hidden_tests o.value = some td) :
    (catalogsOk p td = true → (updateDropdown p).returns = true) ∧
    ((updateDropdown p).returns = true →
      (updateDropdown p).state.visibleCount = min td.specs.length p.hidden_options ∧
      (∀ i, i < td.specs.length → i < p.hidden_options →
        ((updateDropdown p).state.endpoints i).display = "block") ∧
      (∀ i, td.specs.length ≤ i → i < p.hidden_options →
        ((updateDropdown p).state.endpoints i).display = "none")) := by
  constructor
  · intro hcat
    obtain ⟨q, hq⟩ := updateDropdown_returns p o td hsel htd hcat
    rw [hq]; rfl
  · intro hret
    have hq := (Res.returns_iff _).mp hret
    obtain ⟨q1, hinv, heq⟩ := updateDropdown_post p _ o td hsel htd hq
    rw [heq]
    refine ⟨?_, ?_, ?_⟩
    · unfold Page.visibleCount
      simp only [hinv.hidden_options]
      rw [← countP_lt_range td.specs.length p.hidden_options]
      apply List.countP_congr
      intro j hj
      have hj2 : j < p.hidden_options := List.mem_range.mp hj
      simp [hinv.display_iff j hj2]
    · intro i h1 h2
      exact (hinv.display_iff i h2).mpr h1
    · intro i h1 h2
      simp only []
      rw [hinv.hidden i h2 h1]

/-- C1, witness: the example of the specification, where one of two slots is shown. -/
theorem C1_visible_slots_witness :
    (updateDropdown exPage).state.visibleCount = 1 ∧
    ((updateDropdown exPage).state.endpoints 1).display = "none" :=
  ⟨((C1_visible_slots exPage ⟨"t1", "t1"⟩ ⟨[⟨"s1", "a1"⟩], ["case1", "case2"]⟩ rfl rfl).2
      (by decide)).1,
    ((C1_visible_slots exPage ⟨"t1", "t1"⟩ ⟨[⟨"s1", "a1"⟩], ["case1", "case2"]⟩ rfl rfl).2
      (by decide)).2.2 1 (by decide) (by decide)⟩

/-- C1, counterexample: a test with two specs on a page of one slot;
`updateDropdown` returns and shows one slot, not two. -/
theorem C1_counterexample :
    twoSpecsPage.test.selectedOption = some ⟨"t1", "t1"⟩ ∧
    (twoSpecsPage.hidden_tests "t1").map (fun td => td.specs.length) = some 2 ∧
    (updateDropdown twoSpecsPage).returns = true ∧
    (updateDropdown twoSpecsPage).state.visibleCount = 1 ∧
    (updateDropdown twoSpecsPage).state.visibleCount ≠ 2 := by
  decide

/-- C2 (as amended): when `updateDropdown` returns, the version dropdown of
every slot below both `maxOptions` and the spec count holds exactly the
versions of the slot's spec, in order and with nothing left of its previous
options; its selected value is the spec's default version when that is one of
the versions, and otherwise no option is selected and the value is empty. -/
theorem C2_version_dropdown (p : Page) (o : OptionElem) (td : TestEntry)
    (hsel : p.test.selectedOption = some o) (htd : p.hidden_tests o.value = some td) :
    (catalogsOk p td = true → (updateDropdown p).returns = true) ∧
    ((updateDropdown p).returns = true →
      ∀ (i : Nat) (ref : SpecRef) (sd : SpecEntry), i < p.hidden_options →
        td.specs[i]? = some ref → p.hidden_specs ref.spec_key = some sd →
        ((updateDropdown p).state.endpoints i).version.options = optionsOf sd.versions ∧
        (sd.default_version ∈ sd.versions →
          ((updateDropdown p).state.endpoints i).version.value = sd.default_version) ∧
        (sd.default_version ∉ sd.versions →
          ((updateDropdown p).state.endpoints i).version.selectedIndex = none ∧
          ((updateDropdown p).state.endpoints i).version.value = "")) := by
  constructor
  · intro hcat
    obtain ⟨q, hq⟩ := updateDropdown_returns p o td hsel htd hcat
    rw [hq]; rfl
  · intro hret i ref sd hi href hsd
    have hq := (Res.returns_iff _).mp hret
    obtain ⟨q1, hinv, heq⟩ := updateDropdown_post p _ o td hsel htd hq
    obtain ⟨sd', api, hsd', _, hslot⟩ := hinv.shown i ref hi href
    rw [hsd] at hsd'
    simp only [Option.some.injEq] at hsd'
    subst hsd'
    rw [heq]
    simp only []
    rw [hslot]
    have hsv : (⟨optionsOf sd.versions,
        firstMatch sd.default_version (optionsOf sd.versions)⟩ : Select) =
        (⟨optionsOf sd.versions, none⟩ : Select).setValue sd.default_version := rfl
    refine ⟨rfl, ?_, ?_⟩
    · intro hmem
      simp only []
      rw [hsv]
      apply value_setValue_of_mem
      exact ⟨newOption sd.default_version sd.default_version,
        List.mem_map.mpr ⟨_, hmem, rfl⟩, rfl⟩
    · intro hnot
      simp only []
      have hnone : firstMatch sd.default_version (optionsOf sd.versions) = none := by
        cases hm : firstMatch sd.default_version (optionsOf sd.versions) with
        | none => rfl
        | some k =>
          obtain ⟨o', ho1, ho2⟩ := firstMatch_some _ _ k hm
          obtain ⟨x, hx1, hx2⟩ := List.mem_map.mp (List.getElem?_mem ho1)
          subst hx2
          exact absurd (by simpa [newOption] using ho2 ▸ hx1) hnot
      rw [hnone]
      exact ⟨rfl, rfl⟩

/-- C2, witness: the example of the specification, versions `v1`, `v2` with
`v2` selected. -/
theorem C2_version_dropdown_witness :
    ((updateDropdown exPage).state.endpoints 0).version.options =
      [⟨"v1", "v1"⟩, ⟨"v2", "v2"⟩] ∧
    ((updateDropdown exPage).state.endpoints 0).version.value = "v2" :=
  have h := (C2_version_dropdown exPage ⟨"t1", "t1"⟩ ⟨[⟨"s1", "a1"⟩], ["case1", "case2"]⟩
    rfl rfl).2 (by decide) 0 ⟨"s1", "a1"⟩
    ⟨["v1", "v2"], "v2", fun a => if a = "a1" then some ⟨"Payments"⟩ else none⟩
    (by decide) rfl rfl
  ⟨h.1, h.2.1 (by decide)⟩

/-- C2, counterexample: the default version `"v3"` is not among the versions
`"v1"`, `"v2"`; slot 0 is shown with both options and none selected, its value
is the empty string and not `"v3"`. -/
theorem C2_counterexample :
    strayDefaultPage.test.selectedOption = some ⟨"t1", "t1"⟩ ∧
    (strayDefaultPage.hidden_specs "s1").map (fun sd => sd.default_version) = some "v3" ∧
    (updateDropdown strayDefaultPage).returns = true ∧
    ((updateDropdown strayDefaultPage).state.endpoints 0).display = "block" ∧
    ((updateDropdown strayDefaultPage).state.endpoints 0).version.value = "" ∧
    ((updateDropdown strayDefaultPage).state.endpoints 0).version.value ≠ "v3" := by
  decide

/-- C3 (as amended): with a selected test `T` that is a key of the TestCatalog
and whatever the test-selection dropdown held, `updateDropdown` returns when
the SpecCatalog holds what `T` references, and when it returns the options of
the test-selection dropdown are those of `TestCatalog[T].tests`: same length,
the values are the test names in the same order, and the text of each option
is its test name with ASCII whitespace stripped and collapsed, which is the
option's value whenever the name holds no ASCII whitespace. -/
theorem C3_test_selection_options (p : Page) (o : OptionElem) (td : TestEntry)
    (hsel : p.test.selectedOption = some o) (htd : p.hidden_tests o.value = some td) :
    (catalogsOk p td = true → (updateDropdown p).returns = true) ∧
    ((updateDropdown p).returns = true →
      (updateDropdown p).state.test_selection.options.length = td.tests.length ∧
      (updateDropdown p).state.test_selection.options.map (fun x => x.value) = td.tests ∧
      (updateDropdown p).state.test_selection.options.map (fun x => x.text) =
        td.tests.map stripAndCollapse ∧
      (∀ x ∈ (updateDropdown p).state.test_selection.options,
        (∀ c ∈ x.value.data, isAsciiWhitespace c = false) → x.text = x.value)) := by
  constructor
  · intro hcat
    obtain ⟨q, hq⟩ := updateDropdown_returns p o td hsel htd hcat
    rw [hq]; rfl
  · intro hret
    have hq := (Res.returns_iff _).mp hret
    obtain ⟨q1, _, heq⟩ := updateDropdown_post p _ o td hsel htd hq
    rw [heq]
    refine ⟨by simp [optionsOf], by simp [optionsOf, newOption, Function.comp_def],
      by simp [optionsOf, newOption, Function.comp_def], ?_⟩
    intro x hx hplain
    simp only [optionsOf, List.mem_map] at hx
    obtain ⟨t, _, rfl⟩ := hx
    exact stripAndCollapse_of_no_whitespace t hplain

/-- C3, witness: the example of the specification. -/
theorem C3_test_selection_options_witness :
    (updateDropdown exPage).state.test_selection.options.map (fun x => x.value) =
      ["case1", "case2"] ∧
    (updateDropdown exPage).state.test_selection.options.map (fun x => x.text) =
      ["case1", "case2"] :=
  ⟨((C3_test_selection_options exPage ⟨"t1", "t1"⟩ ⟨[⟨"s1", "a1"⟩], ["case1", "case2"]⟩
      rfl rfl).2 (by decide)).2.1,
    ((C3_test_selection_options exPage ⟨"t1", "t1"⟩ ⟨[⟨"s1", "a1"⟩], ["case1", "case2"]⟩
      rfl rfl).2 (by decide)).2.2.1⟩

/-- C3, counterexample: the test name `"a  b"` holds two spaces in a row;
`updateDropdown` returns, the option built from it has the value `"a  b"` and
the text `"a b"`, so its text is not its value. -/
theorem C3_counterexample :
    spacedTestPage.test.selectedOption = some ⟨"t1", "t1"⟩ ∧
    (spacedTestPage.hidden_tests "t1").map (fun td => td.tests) = some ["a  b"] ∧
    (updateDropdown spacedTestPage).returns = true ∧
    (updateDropdown spacedTestPage).state.test_selection.options = [⟨"a b", "a  b"⟩] ∧
    (updateDropdown spacedTestPage).state.test_selection.options.map (fun x => x.text) ≠
      (updateDropdown spacedTestPage).state.test_selection.options.map (fun x => x.value) := by
  decide

/-- C8 (as amended): when `updateDropdown` returns, the label of every slot
below both `maxOptions` and the spec count is assigned, as markup, the name of
the api its spec reference names followed by a single colon; the text the
label shows is that same string whenever the name holds none of `<`, `&`,
carriage return and NUL. In the example of the specification slot 0 shows
`"Payments:"`. -/
theorem C8_slot_label (p : Page) (o : OptionElem) (td : TestEntry)
    (hsel : p.test.selectedOption = some o) (htd : p.hidden_tests o.value = some td) :
    (catalogsOk p td = true → (updateDropdown p).returns = true) ∧
    ((updateDropdown p).returns = true →
      ∀ (i : Nat) (ref : SpecRef) (sd : SpecEntry) (api : ApiEntry), i < p.hidden_options →
        td.specs[i]? = some ref → p.hidden_specs ref.spec_key = some sd →
        sd.apis ref.api_key = some api →
        ((updateDropdown p).state.endpoints i).label = api.name ++ ":" ∧
        ((∀ c ∈ api.name.data, plainChar c = true) →
          ((updateDropdown p).state.endpoints i).labelText = some (api.name ++ ":"))) ∧
    ((updateDropdown exPage).state.endpoints 0).labelText = some "Payments:" := by
  refine ⟨?_, ?_, by decide⟩
  · intro hcat
    obtain ⟨q, hq⟩ := updateDropdown_returns p o td hsel htd hcat
    rw [hq]; rfl
  · intro hret i ref sd api hi href hsd hapi
    have hq := (Res.returns_iff _).mp hret
    obtain ⟨q1, hinv, heq⟩ := updateDropdown_post p _ o td hsel htd hq
    obtain ⟨sd', api', hsd', hapi', hslot⟩ := hinv.shown i ref hi href
    rw [hsd] at hsd'
    simp only [Option.some.injEq] at hsd'
    subst hsd'
    rw [hapi] at hapi'
    simp only [Option.some.injEq] at hapi'
    subst hapi'
    have hlabel : ((updateDropdown p).state.endpoints i).label = api.name ++ ":" := by
      rw [heq]
      simp only []
      rw [hslot]
    refine ⟨hlabel, ?_⟩
    intro hplain
    unfold Slot.labelText
    rw [hlabel]
    exact markupText_append_colon api.name hplain

/-- C8, witness: the label of slot 0 of the example is assigned the api name
`"Payments"` followed by a colon, and shows it. -/
theorem C8_slot_label_witness :
    ((updateDropdown exPage).state.endpoints 0).label = "Payments" ++ ":" ∧
    ((updateDropdown exPage).state.endpoints 0).labelText = some ("Payments" ++ ":") :=
  have h := (C8_slot_label exPage ⟨"t1", "t1"⟩ ⟨[⟨"s1", "a1"⟩], ["case1", "case2"]⟩
    rfl rfl).2.1 (by decide) 0 ⟨"s1", "a1"⟩
    ⟨["v1", "v2"], "v2", fun a => if a = "a1" then some ⟨"Payments"⟩ else none⟩ ⟨"Payments"⟩
    (by decide) rfl rfl rfl
  ⟨h.1, h.2 (by decide)⟩

/-- C8, counterexample: the api name `"<b>Payments</b>"` holds markup;
`updateDropdown` returns and shows slot 0, whose label is assigned
`"<b>Payments</b>:"` and shows the text `"Payments:"`, which is not the name
followed by a colon. -/
theorem C8_counterexample :
    markupNamePage.test.selectedOption = some ⟨"t1", "t1"⟩ ∧
    (updateDropdown markupNamePage).returns = true ∧
    ((updateDropdown markupNamePage).state.endpoints 0).display = "block" ∧
    ((updateDropdown markupNamePage).state.endpoints 0).label = "<b>Payments</b>:" ∧
    ((updateDropdown markupNamePage).state.endpoints 0).labelText = some "Payments:" ∧
    ((updateDropdown markupNamePage).state.endpoints 0).labelText ≠
      some ("<b>Payments</b>" ++ ":") := by
  decide

/-! ## Properties of `saveSettings` and `loadSettings` -/

/-- C7: on a storage that is defined and does not throw, `saveSettings`
leaves `"test"` mapped to the value of the primary selector, `"test_selection"`
to the value of the test-selection field and, for every slot `n` below
`maxOptions`, `"endpoints-<n>-ip"`, `"endpoints-<n>-port"` and
`"endpoints-<n>-version"` to the values of the fields of those identifiers;
every other key keeps its entry and the page is unchanged. -/
theorem C7_saveSettings_stores (w : World) (hdef : w.storage.defined = true)
    (hfail : w.storage.failAfter = none) :
    (saveSettings w).storage.items "test" = some w.page.test.value ∧
    (saveSettings w).storage.items "test_selection" = some w.page.test_selection.value ∧
    (∀ n, n < w.page.hidden_options →
      (saveSettings w).storage.items ("endpoints-" ++ numToString n ++ "-ip") =
        some (w.page.endpoints n).ip ∧
      (saveSettings w).storage.items ("endpoints-" ++ numToString n ++ "-port") =
        some (w.page.endpoints n).port ∧
      (saveSettings w).storage.items ("endpoints-" ++ numToString n ++ "-version") =
        some (w.page.endpoints n).version.value) ∧
    (∀ key, key ≠ "test" → key ≠ "test_selection" →
      (∀ n, n < w.page.hidden_options →
        key ≠ "endpoints-" ++ numToString n ++ "-ip" ∧
        key ≠ "endpoints-" ++ numToString n ++ "-port" ∧
        key ≠ "endpoints-" ++ numToString n ++ "-version") →
      (saveSettings w).storage.items key = w.storage.items key) ∧
    (saveSettings w).page = w.page := by
  obtain ⟨hpage, _, _, htest, htsel, hslots, hother⟩ := saveSettings_stores w hdef hfail
  exact ⟨htest, htsel, hslots, hother, hpage⟩

/-- C7, witness: the example page saved into an empty storage. -/
theorem C7_saveSettings_stores_witness :
    (saveSettings exWorld).storage.items "test" = some "t1" ∧
    (saveSettings exWorld).storage.items "endpoints-1-version" = some "" ∧
    (saveSettings exWorld).storage.items "unrelated" = none :=
  ⟨(C7_saveSettings_stores exWorld rfl rfl).1,
    ((C7_saveSettings_stores exWorld rfl rfl).2.2.1 1 (by decide)).2.2,
    (C7_saveSettings_stores exWorld rfl rfl).2.2.2.1 "unrelated" (by decide) (by decide)
      (fun n _ => ⟨fun h => by
          have := congrArg (fun s => s.data.head?) h
          simp [String.data_append] at this,
        fun h => by
          have := congrArg (fun s => s.data.head?) h
          simp [String.data_append] at this,
        fun h => by
          have := congrArg (fun s => s.data.head?) h
          simp [String.data_append] at this⟩)⟩

/-- C6: when `localStorage` is undefined or holds no `"test"` entry,
`loadSettings` is one `updateDropdown` on the page as it is: same page
reached, same outcome, and nothing of the storage is applied; the primary
selector and the ip and port of every slot are as before, whatever the
storage holds under other keys. -/
theorem C6_no_stored_test (w : World)
    (h : w.storage.defined = false ∨ w.storage.items "test" = none) :
    (loadSettings w).state.page = (updateDropdown w.page).state ∧
    (loadSettings w).error = (updateDropdown w.page).error ∧
    (loadSettings w).state.page.test = w.page.test ∧
    (∀ n, ((loadSettings w).state.page.endpoints n).ip = (w.page.endpoints n).ip ∧
      ((loadSettings w).state.page.endpoints n).port = (w.page.endpoints n).port) := by
  have hfb := loadSettings_fallback w (by
    rcases h with h | h
    · exact Or.inl h
    · exact Or.inr (Or.inl h))
  have hframe := updateDropdown_frame w.page
  refine ⟨hfb.1, hfb.2.1, ?_, ?_⟩
  · rw [hfb.1]; exact hframe.test
  · intro n
    rw [hfb.1]
    exact ⟨hframe.ip n, hframe.port n⟩

/-- C6, witness: the example page with an empty storage. -/
theorem C6_no_stored_test_witness :
    (loadSettings exWorld).state.page.test = exWorld.page.test ∧
    (loadSettings exWorld).error = (updateDropdown exWorld.page).error :=
  ⟨(C6_no_stored_test exWorld (Or.inr rfl)).2.2.1, (C6_no_stored_test exWorld (Or.inr rfl)).2.1⟩

/-- C5 (as amended): with `localStorage` defined and a selected test that is a
key of the TestCatalog whose references the SpecCatalog holds, `loadSettings`
returns whenever an access to the storage throws while it runs, at the first
`getItem` or at any later one. When the throw is at the first or the second
`getItem` (the two reads of `"test"`), the page it leaves is the page one
`updateDropdown` makes of the page before. When the throw is at a later
`getItem`, the stored test is the one selected, and the page it leaves is the
page one `updateDropdown` makes of the page as it stood at the throw. -/
theorem C5_storage_throw_fallback (w : World) (o : OptionElem) (td : TestEntry)
    (hdef : w.storage.defined = true)
    (hsel : w.page.test.selectedOption = some o)
    (htd : w.page.hidden_tests o.value = some td)
    (hcat : catalogsOk w.page td = true) :
    (storageThrows w → (loadSettings w).returns = true) ∧
    ((w.storage.failAfter = some 0 ∨ w.storage.failAfter = some 1) →
      (loadSettings w).state.page = (updateDropdown w.page).state) ∧
    (∀ (v : String) (st1 : Storage), w.storage.getItem "test" = some (some v, st1) →
      st1.failAfter ≠ some 0 → (loadStored ⟨w.page, st1⟩).error = some .storageError →
      (loadSettings w).state.page.test = w.page.test.setValue v ∧
      (loadSettings w).state.page =
        (updateDropdown (loadStored ⟨w.page, st1⟩).state.page).state) := by
  have hdefault : (updateDropdown w.page).returns = true := by
    obtain ⟨q, hq⟩ := updateDropdown_returns w.page o td hsel htd hcat
    rw [hq]; rfl
  have hload : ∀ (v : String) (st1 : Storage), w.storage.getItem "test" = some (some v, st1) →
      (loadStored ⟨w.page, st1⟩).error = some .storageError →
      loadSettings w = refresh (loadStored ⟨w.page, st1⟩).state := by
    intro v st1 hg herr
    unfold loadSettings
    rw [if_pos hdef, hg]
    simp only [Option.isSome_some, if_true]
    cases hr : loadStored ⟨w.page, st1⟩ with
    | ok w2 => rw [hr] at herr; simp [Res.error] at herr
    | throw e w2 => rfl
  refine ⟨?_, ?_, ?_⟩
  · intro hthrows
    rcases hthrows with hg | ⟨v, st1, hg, herr⟩
    · have hfb := loadSettings_fallback w (Or.inr (Or.inr (Or.inl (getItem_none _ _ hg))))
      rw [hfb.2.2.1]
      exact hdefault
    · rw [hload v st1 hg herr, refresh_returns]
      rcases loadStored_storageError ⟨w.page, st1⟩ herr with ⟨_, hstate⟩ | ⟨_, hret, hsame⟩
      · rw [hstate]
        exact hdefault
      · exact updateDropdown_returns_of_sameSelector _ _ hsame hret
  · intro hk
    exact (loadSettings_fallback w (Or.inr (Or.inr hk))).1
  · intro v st1 hg hne herr
    obtain ⟨hitems, hv, _⟩ := getItem_some _ _ _ _ hg
    rw [hload v st1 hg herr, refresh_page]
    refine ⟨?_, rfl⟩
    rcases loadStored_storageError ⟨w.page, st1⟩ herr with ⟨h0, _⟩ | ⟨_, _, hsame⟩
    · exact absurd h0 hne
    · rw [(updateDropdown_sameSelector _).test, hsame.test]
      simp only [hitems, ← hv, selectArg, Option.getD_some]

/-- C5, witness: the storage holds `"t2"` under `"test"` and throws at the
third `getItem`; `loadSettings` returns and leaves `t2` selected. A storage that
throws at the first access leaves the page of one `updateDropdown`. -/
theorem C5_storage_throw_fallback_witness :
    (loadSettings lateThrowWorld).returns = true ∧
    (loadSettings lateThrowWorld).state.page.test =
      lateThrowWorld.page.test.setValue "t2" ∧
    (loadSettings ⟨exPage, ⟨true, fun _ => none, some 0⟩⟩).state.page =
      (updateDropdown exPage).state :=
  ⟨(C5_storage_throw_fallback lateThrowWorld ⟨"t1", "t1"⟩ ⟨[⟨"s1", "a1"⟩], ["case1", "case2"]⟩
      rfl rfl rfl (by decide)).1
      (Or.inr ⟨"t2", ⟨true, lateThrowWorld.storage.items, some 1⟩, rfl, by decide⟩),
    ((C5_storage_throw_fallback lateThrowWorld ⟨"t1", "t1"⟩
      ⟨[⟨"s1", "a1"⟩], ["case1", "case2"]⟩ rfl rfl rfl (by decide)).2.2
      "t2" ⟨true, lateThrowWorld.storage.items, some 1⟩ rfl (by decide) (by decide)).1,
    (C5_storage_throw_fallback ⟨exPage, ⟨true, fun _ => none, some 0⟩⟩ ⟨"t1", "t1"⟩
      ⟨[⟨"s1", "a1"⟩], ["case1", "case2"]⟩ rfl rfl rfl (by decide)).2.1 (Or.inl rfl)⟩

/-- C5, counterexample, in two parts. First: `t1` is selected and valid, the
storage holds `"t2"` under `"test"` and throws at the third `getItem`;
`loadSettings` returns, but it leaves `t2` selected, while one `updateDropdown`
on the page before leaves `t1` selected. Second: `t1` is selected and is a key
of the TestCatalog, the spec it references is missing from the SpecCatalog and
the storage throws at the first `getItem`; `loadSettings` raises. -/
theorem C5_counterexample :
    (lateThrowWorld.page.test.selectedOption = some ⟨"t1", "t1"⟩ ∧
      (lateThrowWorld.page.hidden_tests "t1").isSome = true ∧
      lateThrowWorld.storage.failAfter = some 2 ∧
      (updateDropdown lateThrowWorld.page).returns = true ∧
      (loadSettings lateThrowWorld).returns = true ∧
      (loadSettings lateThrowWorld).state.page.test.value = "t2" ∧
      (updateDropdown lateThrowWorld.page).state.test.value = "t1" ∧
      (loadSettings lateThrowWorld).state.page ≠ (updateDropdown lateThrowWorld.page).state) ∧
    (missingSpecThrowWorld.page.test.selectedOption = some ⟨"t1", "t1"⟩ ∧
      (missingSpecThrowWorld.page.hidden_tests "t1").isSome = true ∧
      missingSpecThrowWorld.storage.failAfter = some 0 ∧
      (loadSettings missingSpecThrowWorld).error = some .typeError) := by
  refine ⟨⟨by decide, by decide, by decide, by decide, by decide, by decide, by decide, ?_⟩,
    by decide⟩
  intro h
  have h2 := congrArg (fun q : Page => q.test.value) h
  revert h2
  decide

/-- C9: a selected test identifier that is not a key of the TestCatalog makes
`updateDropdown` throw a `TypeError` instead of returning, whatever
`maxOptions` is. The same error leaves `loadSettings`: when it goes straight
to the final `updateDropdown` (storage undefined, no `"test"` entry, or a throw
at one of the two reads of `"test"`), and when the identifier comes from the
stored `"test"` entry, where the error of the `updateDropdown` inside `try` is
caught and the call after the `catch` throws again. -/
theorem C9_unknown_test_throws :
    (∀ (p : Page) (o : OptionElem), p.test.selectedOption = some o →
      p.hidden_tests o.value = none →
      (updateDropdown p).error = some .typeError ∧ (updateDropdown p).returns = false) ∧
    (∀ (w : World) (o : OptionElem), w.page.test.selectedOption = some o →
      w.page.hidden_tests o.value = none →
      (w.storage.defined = false ∨ w.storage.items "test" = none ∨
        w.storage.failAfter = some 0 ∨ w.storage.failAfter = some 1) →
      (loadSettings w).error = some .typeError ∧ (loadSettings w).returns = false) ∧
    (∀ (w : World) (v : String), w.storage.defined = true →
      w.storage.items "test" = some v →
      w.storage.failAfter ≠ some 0 → w.storage.failAfter ≠ some 1 →
      w.page.hidden_tests v = none →
      (loadSettings w).error = some .typeError ∧ (loadSettings w).returns = false) := by
  have hret : ∀ {σ : Type} (r : Res σ), r.error = some .typeError → r.returns = false := by
    intro σ r h
    cases r with
    | ok s => simp [Res.error] at h
    | throw e s => rfl
  refine ⟨?_, ?_, ?_⟩
  · intro p o hsel hbad
    have := updateDropdown_throws p (by simp [hsel, hbad])
    exact ⟨this, hret _ this⟩
  · intro w o hsel hbad hst
    have hfb := loadSettings_fallback w hst
    have := updateDropdown_throws w.page (by simp [hsel, hbad])
    rw [← hfb.2.1] at this
    exact ⟨this, hret _ this⟩
  · intro w v hdef hv h0 h1 hbad
    have := loadSettings_throws_stored w v hdef hv h0 h1 hbad
    exact ⟨this, hret _ this⟩

/-- C9, witness: the identifier `"zz"` is no key of the example TestCatalog;
`updateDropdown` throws with `maxOptions = 2` and with `maxOptions = 0`, and
`loadSettings` throws with `"zz"` selected on the page or stored under `"test"`. -/
theorem C9_unknown_test_throws_witness :
    (updateDropdown unknownTestPage).error = some .typeError ∧
    (updateDropdown { unknownTestPage with hidden_options := 0 }).returns = false ∧
    (loadSettings ⟨unknownTestPage, exStorage⟩).error = some .typeError ∧
    (loadSettings ⟨exPage, unknownTestStorage⟩).returns = false :=
  ⟨(C9_unknown_test_throws.1 unknownTestPage ⟨"zz", "zz"⟩ rfl rfl).1,
    (C9_unknown_test_throws.1 { unknownTestPage with hidden_options := 0 } ⟨"zz", "zz"⟩
      rfl rfl).2,
    (C9_unknown_test_throws.2.1 ⟨unknownTestPage, exStorage⟩ ⟨"zz", "zz"⟩ rfl rfl
      (Or.inr (Or.inl rfl))).1,
    (C9_unknown_test_throws.2.2 ⟨exPage, unknownTestStorage⟩ "zz" rfl rfl
      (by decide) (by decide) rfl).2⟩

/-- C10: with a selected test that is a key of the TestCatalog, one run of
`updateDropdown`, whether it returns or throws, leaves unchanged the primary
selector, the ip and port of every slot, the storage, and the label and
version dropdown of every slot at or beyond the spec count, which are the slots
it hides. `saveSettings` after it stores, for each such slot below
`maxOptions`, the version value the slot had before the run. -/
theorem C10_updateDropdown_frame (p : Page) (o : OptionElem) (td : TestEntry)
    (hsel : p.test.selectedOption = some o) (htd : p.hidden_tests o.value = some td) :
    (updateDropdown p).state.test = p.test ∧
    (∀ n, ((updateDropdown p).state.endpoints n).ip = (p.endpoints n).ip ∧
      ((updateDropdown p).state.endpoints n).port = (p.endpoints n).port) ∧
    (∀ n, td.specs.length ≤ n →
      ((updateDropdown p).state.endpoints n).label = (p.endpoints n).label ∧
      ((updateDropdown p).state.endpoints n).version = (p.endpoints n).version) ∧
    (∀ st : Storage, (refresh ⟨p, st⟩).state.storage = st) ∧
    (∀ st : Storage, st.defined = true → st.failAfter = none →
      ∀ n, n < p.hidden_options → td.specs.length ≤ n →
        (saveSettings ⟨(updateDropdown p).state, st⟩).storage.items
          ("endpoints-" ++ numToString n ++ "-version") =
          some (p.endpoints n).version.value) := by
  have hframe := updateDropdown_frame p
  rw [hsel] at hframe
  simp only [Option.bind, htd] at hframe
  have hhid : ∀ n, td.specs.length ≤ n → ∀ td', some td = some td' → td'.specs.length ≤ n := by
    intro n hn td' heq
    simp only [Option.some.injEq] at heq
    subst heq
    exact hn
  refine ⟨hframe.test, fun n => ⟨hframe.ip n, hframe.port n⟩,
    fun n hn => ⟨hframe.label n (hhid n hn), hframe.version n (hhid n hn)⟩,
    fun st => refresh_storage ⟨p, st⟩, ?_⟩
  intro st hdef hfail n hn hlen
  obtain ⟨_, _, _, _, _, hslots, _⟩ :=
    saveSettings_stores ⟨(updateDropdown p).state, st⟩ hdef hfail
  have := (hslots n (by simpa [hframe.hidden_options] using hn)).2.2
  simp only [] at this
  rw [hframe.version n (hhid n hlen)] at this
  exact this

/-- C10, witness: on the example page, slot 1 is hidden and keeps its label
and version dropdown. -/
theorem C10_updateDropdown_frame_witness :
    ((updateDropdown exPage).state.endpoints 1).version = (exPage.endpoints 1).version ∧
    (saveSettings ⟨(updateDropdown exPage).state, exStorage⟩).storage.items
      ("endpoints-" ++ numToString 1 ++ "-version") = some "" :=
  ⟨((C10_updateDropdown_frame exPage ⟨"t1", "t1"⟩ ⟨[⟨"s1", "a1"⟩], ["case1", "case2"]⟩
      rfl rfl).2.2.1 1 (by decide)).2,
    (C10_updateDropdown_frame exPage ⟨"t1", "t1"⟩ ⟨[⟨"s1", "a1"⟩], ["case1", "case2"]⟩
      rfl rfl).2.2.2.2 exStorage rfl rfl 1 (by decide) (by decide)⟩


/-- Writing a value that one of the options has into a dropdown selects an
option of that value. -/
theorem selectedOption_setValue_of_mem (s : Select) (v : String)
    (h : ∃ x ∈ s.options, x.value = v) :
    ∃ o', (s.setValue v).selectedOption = some o' ∧ o'.value = v := by
  obtain ⟨x, hx, hxv⟩ := h
  cases hm : firstMatch v s.options with
  | none => exact absurd hxv (firstMatch_none _ _ hm x hx)
  | some i =>
    obtain ⟨o', h1, h2⟩ := firstMatch_some _ _ i hm
    exact ⟨o', by simp [Select.selectedOption, Select.setValue, hm, h1], h2⟩

theorem selectedOption_mem (s : Select) (o : OptionElem) (h : s.selectedOption = some o) :
    o ∈ s.options := by
  unfold Select.selectedOption at h
  cases hi : s.selectedIndex with
  | none => simp [hi] at h
  | some i =>
    simp only [hi] at h
    exact List.getElem?_mem h

/-- A value that is empty or one of `xs` is kept by writing it into a dropdown
whose options were built from `xs`. -/
theorem value_setValue_optionsOf (xs : List String) (sel : Option Nat) (v : String)
    (h : v = "" ∨ v ∈ xs) : ((⟨optionsOf xs, sel⟩ : Select).setValue v).value = v := by
  rcases h with h | h
  · subst h; exact value_setValue_empty _
  · exact value_setValue_of_mem _ _ ⟨newOption v v, List.mem_map.mpr ⟨v, h, rfl⟩, rfl⟩

/-- The settings saved from one page and loaded into a page of the same
template. -/
theorem round_trip (w : World) (q : Page) (o : OptionElem) (td : TestEntry)
    (hdef : w.storage.defined = true) (hfail : w.storage.failAfter = none)
    (hsel : w.page.test.selectedOption = some o)
    (htd : w.page.hidden_tests o.value = some td)
    (hcat : catalogsOk w.page td = true)
    (hq : SameTemplate w.page q)
    (hts : w.page.test_selection.value = "" ∨ w.page.test_selection.value ∈ td.tests)
    (hver : ∀ (i : Nat) (ref : SpecRef) (sd : SpecEntry), i < w.page.hidden_options →
      td.specs[i]? = some ref → w.page.hidden_specs ref.spec_key = some sd →
      (w.page.endpoints i).version.value = "" ∨
        (w.page.endpoints i).version.value ∈ sd.versions)
    (hhid : ∀ n, td.specs.length ≤ n → n < w.page.hidden_options →
      (w.page.endpoints n).version.value = "" ∨
        ∃ x ∈ (q.endpoints n).version.options, x.value = (w.page.endpoints n).version.value) :
    Restored w.page (loadSettings ⟨q, (saveSettings w).storage⟩) := by
  obtain ⟨_, hdef1, hfail1, htest, htsel, hslots, _⟩ := saveSettings_stores w hdef hfail
  generalize (saveSettings w).storage = st at hdef1 hfail1 htest htsel hslots ⊢
  have hval : w.page.test.value = o.value := by simp [Select.value, hsel]
  obtain ⟨o1, hsel1, ho1⟩ := selectedOption_setValue_of_mem q.test w.page.test.value
    ⟨o, by rw [hq.options]; exact selectedOption_mem _ _ hsel, hval.symm⟩
  have htd1 : q.hidden_tests o1.value = some td := by
    rw [ho1, hval, hq.hidden_tests]; exact htd
  have hcat1 : catalogsOk q td = true := by
    unfold catalogsOk at hcat ⊢
    rw [hq.hidden_options, hq.hidden_specs]
    exact hcat
  obtain ⟨p2, hup⟩ := updateDropdown_returns
    { q with test := q.test.setValue w.page.test.value } o1 td hsel1 htd1 hcat1
  obtain ⟨q1, hinv, heq⟩ := updateDropdown_post
    { q with test := q.test.setValue w.page.test.value } p2 o1 td hsel1 htd1 hup
  obtain ⟨w1, hload, hr⟩ := loadSettings_stored ⟨q, st⟩ w.page.test.value p2 hdef1 hfail1
    htest hup
  have hopt : p2.hidden_options = w.page.hidden_options := by
    rw [heq]
    simp only []
    rw [hinv.hidden_options]
    exact hq.hidden_options
  rw [hload]
  unfold Restored
  simp only [Res.returns, Res.state]
  refine ⟨trivial, ?_, ?_, ?_⟩
  · rw [hr.test]
    simp only []
    rw [heq]
    simp only []
    rw [hinv.test]
    simp only []
    exact value_setValue_of_mem _ _
      ⟨o, by rw [hq.options]; exact selectedOption_mem _ _ hsel, hval.symm⟩
  · rw [hr.test_selection]
    simp only []
    rw [heq, htsel]
    exact value_setValue_optionsOf td.tests _ _ hts
  · intro n hn
    have hn1 : n < q.hidden_options := by rw [hq.hidden_options]; exact hn
    have hdone := hr.done n (by rw [hopt]; exact hn)
    simp only [] at hdone
    obtain ⟨hip, hport, hversion⟩ := hslots n hn
    rw [hdone]
    simp only [restoredSlot, hip, hport, hversion, inputArg, selectArg, Option.getD_some]
    refine ⟨trivial, trivial, ?_⟩
    rw [heq]
    simp only []
    by_cases hlt : n < td.specs.length
    · obtain ⟨sd, api, hsd, _, hslot⟩ :=
        hinv.shown n td.specs[n] hn1 (List.getElem?_eq_getElem hlt)
      rw [hslot]
      simp only [] at hsd
      rw [hq.hidden_specs] at hsd
      exact value_setValue_optionsOf sd.versions _ _
        (hver n td.specs[n] sd hn (List.getElem?_eq_getElem hlt) hsd)
    · rw [hinv.hidden n hn1 (by omega)]
      simp only []
      rcases hhid n (by omega) hn with h | h
      · rw [h]; exact value_setValue_empty _
      · exact value_setValue_of_mem _ _ h

theorem sameTemplate_refl (p : Page) : SameTemplate p p := ⟨rfl, rfl, rfl, rfl⟩

/-- C4 (as amended): on a storage that is defined and does not throw,
`saveSettings` on a page followed by `loadSettings`, on that page or on any
page of the same template (same hidden fields, same options of the primary
selector, other fields free), returns and leaves the primary selector, the
test-selection field and the ip, port and version of every slot below
`maxOptions` with the values they had at `saveSettings`, provided that: the
selected test `T` is a key of the TestCatalog whose references the SpecCatalog
holds; the test-selection value is empty or one of `TestCatalog[T].tests`; the
version of every slot below the spec count is empty or one of the versions of
the slot's spec; and the version of every slot at or beyond the spec count is
empty or the value of an option the slot's dropdown holds on the page loaded
into, as it always is on the page saved from. -/
theorem C4_round_trip (w : World) (o : OptionElem) (td : TestEntry)
    (hdef : w.storage.defined = true) (hfail : w.storage.failAfter = none)
    (hsel : w.page.test.selectedOption = some o)
    (htd : w.page.hidden_tests o.value = some td)
    (hcat : catalogsOk w.page td = true)
    (hts : w.page.test_selection.value = "" ∨ w.page.test_selection.value ∈ td.tests)
    (hver : ∀ (i : Nat) (ref : SpecRef) (sd : SpecEntry), i < w.page.hidden_options →
      td.specs[i]? = some ref → w.page.hidden_specs ref.spec_key = some sd →
      (w.page.endpoints i).version.value = "" ∨
        (w.page.endpoints i).version.value ∈ sd.versions) :
    (∀ q : Page, SameTemplate w.page q →
      (∀ n, td.specs.length ≤ n → n < w.page.hidden_options →
        (w.page.endpoints n).version.value = "" ∨
          ∃ x ∈ (q.endpoints n).version.options,
            x.value = (w.page.endpoints n).version.value) →
      Restored w.page (loadSettings ⟨q, (saveSettings w).storage⟩)) ∧
    Restored w.page (loadSettings (saveSettings w)) := by
  refine ⟨fun q hq hhid => round_trip w q o td hdef hfail hsel htd hcat hq hts hver hhid, ?_⟩
  have hsame := round_trip w w.page o td hdef hfail hsel htd hcat (sameTemplate_refl _) hts hver
    (fun n _ _ => value_empty_or_mem (w.page.endpoints n).version)
  have hw : saveSettings w = ⟨w.page, (saveSettings w).storage⟩ := by
    have := saveSettings_page w
    cases hs : saveSettings w with
    | mk pg st => rw [hs] at this; simp only at this; rw [this]
  rw [hw]
  exact hsame

/-- C4, witness: the page in use is saved into an empty storage and loaded
into the freshly rendered example page, whose fields are all empty; every
field comes back. -/
theorem C4_round_trip_witness :
    (loadSettings ⟨exPage, (saveSettings savedWorld).storage⟩).returns = true ∧
    (loadSettings ⟨exPage, (saveSettings savedWorld).storage⟩).state.page.test_selection.value
      = "case2" ∧
    ((loadSettings ⟨exPage, (saveSettings savedWorld).storage⟩).state.page.endpoints 0).ip
      = "10.0.0.1" ∧
    ((loadSettings
      ⟨exPage, (saveSettings savedWorld).storage⟩).state.page.endpoints 0).version.value
      = "v1" :=
  have h := (C4_round_trip savedWorld ⟨"t1", "t1"⟩ ⟨[⟨"s1", "a1"⟩], ["case1", "case2"]⟩
    rfl rfl rfl rfl (by decide) (Or.inr (by decide))
    (fun i ref sd hi href hsd => by
      have hi2 : i < 2 := hi
      interval_cases i
      · simp only [List.getElem?_cons_zero, Option.some.injEq] at href
        subst href
        have hsd2 : exSpecs "s1" = some sd := hsd
        simp only [exSpecs, if_true, Option.some.injEq] at hsd2
        subst hsd2
        exact Or.inr (by decide)
      · simp at href)).1 exPage ⟨rfl, rfl, rfl, rfl⟩
    (fun n h1 h2 => by
      have h3 : 1 ≤ n := h1
      have h4 : n < 2 := h2
      have h5 : n = 1 := by omega
      subst h5
      exact Or.inl (by decide))
  ⟨h.1, h.2.2.1, (h.2.2.2 0 (by decide)).1, (h.2.2.2 0 (by decide)).2.2⟩

/-- C4, counterexample, one part for each condition of the amended claim; in
each, a form field does not come back. (1) `localStorage` undefined, and (2) a
storage that throws: nothing is stored, and the test selection `"case2"` comes
back as `"case1"`. (3) A test selection `"old"` that is no test of `t1` comes
back empty. (4) A version `"v0"` of slot 0 that is no version of its spec comes
back empty. (5) The selected test `"zz"` is no key of the TestCatalog:
`loadSettings` raises on the fresh page and the ip of slot 0 stays empty. (6)
The spec of `t1` is missing from the SpecCatalog: `loadSettings` raises and the
version `"v1"` of slot 0 comes back empty. (7) The hidden slot 1 holds the
version `"x2"` of an earlier test: on the freshly rendered page it comes back
empty. (8) A page of another template, whose selector does not offer `t1`:
`loadSettings` raises and the ip of slot 0 stays empty. -/
theorem C4_counterexample :
    (noStorageWorld.page.test_selection.value = "case2" ∧
      (loadSettings (saveSettings noStorageWorld)).state.page.test_selection.value
        = "case1") ∧
    (throwingWorld.page.test_selection.value = "case2" ∧
      (loadSettings (saveSettings throwingWorld)).state.page.test_selection.value
        = "case1") ∧
    (staleSelectionWorld.page.test_selection.value = "old" ∧
      (loadSettings (saveSettings staleSelectionWorld)).state.page.test_selection.value
        = "") ∧
    ((staleVersionWorld.page.endpoints 0).version.value = "v0" ∧
      ((loadSettings (saveSettings staleVersionWorld)).state.page.endpoints 0).version.value
        = "") ∧
    ((unknownSavedWorld.page.endpoints 0).ip = "10.0.0.1" ∧
      (loadSettings ⟨unknownTestPage, (saveSettings unknownSavedWorld).storage⟩).returns
        = false ∧
      ((loadSettings
        ⟨unknownTestPage, (saveSettings unknownSavedWorld).storage⟩).state.page.endpoints 0).ip
        = "") ∧
    ((missingSpecPage.endpoints 0).version.value = "v1" ∧
      (loadSettings (saveSettings ⟨missingSpecPage, exStorage⟩)).returns = false ∧
      ((loadSettings
        (saveSettings ⟨missingSpecPage, exStorage⟩)).state.page.endpoints 0).version.value
        = "") ∧
    ((staleHiddenWorld.page.endpoints 1).version.value = "x2" ∧
      (loadSettings ⟨exPage, (saveSettings staleHiddenWorld).storage⟩).returns = true ∧
      ((loadSettings
        ⟨exPage, (saveSettings staleHiddenWorld).storage⟩).state.page.endpoints 1).version.value
        = "") ∧
    ((savedWorld.page.endpoints 0).ip = "10.0.0.1" ∧
      (loadSettings ⟨otherTemplatePage, (saveSettings savedWorld).storage⟩).returns = false ∧
      ((loadSettings
        ⟨otherTemplatePage, (saveSettings savedWorld).storage⟩).state.page.endpoints 0).ip
        = "") := by
  refine ⟨by decide, by decide, by decide, by decide, by decide, by decide, by decide,
    by decide⟩

end NmosTesting
